import Mathlib

/-!
Shallow embedding of the university club/event management backend
(Express controllers over Drizzle/SQLite).  Each controller is modelled as a
pure function on an explicit `Store`: `db.select(...).where(eq(id)).get()`
becomes `List.find?`, `db.update(...).where(eq(id))` a guarded `List.map`,
`db.delete(...).where(...)` a `List.filter`, and `db.insert` an append paired
with an auto-increment counter.  The `createdAt`/`updatedAt` timestamp columns
are omitted: they hold opaque wall-clock values never read by the modelled
logic.  JavaScript truthiness of optional request-body fields is modelled
explicitly (`jsTruthyStr`, `jsOrInt`, ...).  Numeric columns are `Int`
(JavaScript numbers can go negative; nothing in the source restricts them),
ids are `Nat`.
-/

namespace Diploma2

/-- Roles, from `users.role` in src/unnamed/part_001 (schema). -/
inductive Role where
  | student
  | head_admin
  | super_admin
deriving DecidableEq

/-- Request / booking status enum shared by club requests, event requests and
ticket bookings (schema in src/unnamed/part_001). -/
inductive RStatus where
  | pending
  | approved
  | rejected
deriving DecidableEq

/-- The string stored in the status column, used in "already {status}" error
messages. -/
def RStatus.str : RStatus → String
  | .pending => "pending"
  | .approved => "approved"
  | .rejected => "rejected"

/-- `users` table row (password, phone, gender, birthDate, clubName and email
verification flag are never read by the modelled controllers and are omitted). -/
structure User where
  id : Nat
  name : String
  surname : String
  email : String
  role : Role
deriving DecidableEq

/-- `club_requests` table row. -/
structure ClubRequest where
  id : Nat
  title : String
  headId : Nat
  email : String
  phone : String
  communication : String
  clubName : String
  goal : String
  description : String
  financing : String
  resources : Option String
  attractionMethods : String
  comment : Option String
  status : RStatus
deriving DecidableEq

/-- `clubs` table row.  `name` carries a UNIQUE constraint in the schema. -/
structure Club where
  id : Nat
  name : String
  headId : Nat
  goal : String
  description : String
  financing : String
  resources : Option String
  attractionMethods : String
  rating : Int
deriving DecidableEq

/-- `event_requests` table row. -/
structure EventRequest where
  id : Nat
  clubId : Nat
  headId : Nat
  eventName : String
  eventDate : String
  location : String
  shortDescription : String
  goal : String
  organizers : String
  schedule : String
  sponsorship : Option String
  clubHead : String
  phone : String
  comment : Option String
  status : RStatus
deriving DecidableEq

/-- `events` table row. -/
structure Event where
  id : Nat
  clubId : Nat
  headId : Nat
  eventName : String
  eventDate : String
  location : String
  shortDescription : String
  goal : String
  organizers : String
  schedule : String
  sponsorship : Option String
deriving DecidableEq

/-- `posters` table row. -/
structure Poster where
  id : Nat
  eventId : Nat
  clubId : Nat
  headId : Nat
  eventTitle : String
  eventDate : String
  location : String
  time : String
  description : String
  seats : Int
  seatsLeft : Int
  price : Int
  image : Option String
deriving DecidableEq

/-- `ticket_bookings` table row. -/
structure TicketBooking where
  id : Nat
  posterId : Nat
  userId : Nat
  numberOfPersons : Int
  paymentProof : Option String
  status : RStatus
deriving DecidableEq

/-- `posts` table row (`clubId` is nullable in the schema). -/
structure Post where
  id : Nat
  clubId : Option Nat
  userId : Nat
  title : String
  content : String
  image : Option String
  likes : Int
deriving DecidableEq

/-- `post_likes` join-table row. -/
structure PostLike where
  id : Nat
  postId : Nat
  userId : Nat
deriving DecidableEq

/-- The relational store: one list per table the modelled controllers touch,
plus the SQLite auto-increment counters of the tables they insert into. -/
structure Store where
  users : List User
  clubRequests : List ClubRequest
  clubs : List Club
  eventRequests : List EventRequest
  events : List Event
  posters : List Poster
  ticketBookings : List TicketBooking
  posts : List Post
  postLikes : List PostLike
  nextClubId : Nat
  nextEventId : Nat
  nextPosterId : Nat
  nextBookingId : Nat
  nextLikeId : Nat
deriving DecidableEq

/-- An HTTP response: `res.status(code).json({ message })`. -/
structure ApiResp where
  status : Nat
  message : String
deriving DecidableEq

/-- JavaScript truthiness of an optional string body field (`undefined`,
`null` and the empty string are falsy). -/
def jsTruthyStr : Option String → Bool
  | some v => v != ""
  | none => false

/-- JavaScript `x || d` for an optional string field. -/
def jsOrStr : Option String → String → String
  | some v, d => if v = "" then d else v
  | none, d => d

/-- JavaScript truthiness of an optional integer body field (`undefined` and
`0` are falsy). -/
def jsTruthyInt : Option Int → Bool
  | some v => v != 0
  | none => false

/-- JavaScript `x || d` for an optional integer field. -/
def jsOrInt : Option Int → Int → Int
  | some v, d => if v = 0 then d else v
  | none, d => d

/-- `createPoster` (src/unnamed/part_001 lines 55-105): head admin only, the
event must exist and belong to the caller; the inserted row has
`seatsLeft: seats`. -/
def createPoster (s : Store) (callerId : Nat) (callerRole : Role)
    (eventId : Nat) (eventTitle eventDate location time description : String)
    (seats price : Int) (image : Option String) : Store × ApiResp :=
  if callerRole ≠ Role.head_admin then
    (s, ⟨403, "Only head admins can create posters"⟩)
  else
    match s.events.find? (fun e => e.id == eventId) with
    | none => (s, ⟨404, "Event not found"⟩)
    | some event =>
      if event.headId ≠ callerId then
        (s, ⟨403, "You can only create posters for your own events"⟩)
      else
        let poster : Poster :=
          { id := s.nextPosterId, eventId := eventId, clubId := event.clubId,
            headId := callerId, eventTitle := eventTitle, eventDate := eventDate,
            location := location, time := time, description := description,
            seats := seats, seatsLeft := seats, price := price, image := image }
        ({ s with posters := s.posters ++ [poster],
                  nextPosterId := s.nextPosterId + 1 },
         ⟨201, "Poster created successfully"⟩)

/-- The optional request-body fields of `updatePoster` (absent field =
`none`).  `image` is tested with `!== undefined` in the source, so a provided
`null` is distinguished from an absent field: hence `Option (Option String)`. -/
structure UpdateArgs where
  eventTitle : Option String
  eventDate : Option String
  location : Option String
  time : Option String
  description : Option String
  seats : Option Int
  price : Option Int
  image : Option (Option String)
deriving DecidableEq

/-- The `seatsLeft` re-derivation in `updatePoster` (src/unnamed/part_001
lines 354-359): only when the supplied `seats` is truthy and differs from the
stored value, add the delta and clamp at 0. -/
def newSeatsLeft (poster : Poster) : Option Int → Int
  | some v =>
      if v ≠ 0 ∧ v ≠ poster.seats then
        let d := poster.seatsLeft + (v - poster.seats)
        if d < 0 then 0 else d
      else poster.seatsLeft
  | none => poster.seatsLeft

/-- `updatePoster` (src/unnamed/part_001 lines 328-382): looks the poster up,
rejects callers who are not the owning head admin, then writes every field
through JavaScript `||` defaulting (`image` through `!== undefined`), with
`seatsLeft` re-derived by `newSeatsLeft`. -/
def updatePoster (s : Store) (callerId : Nat) (callerRole : Role)
    (posterId : Nat) (args : UpdateArgs) : Store × ApiResp :=
  match s.posters.find? (fun p => p.id == posterId) with
  | none => (s, ⟨404, "Poster not found"⟩)
  | some poster =>
    if callerRole ≠ Role.head_admin ∨ poster.headId ≠ callerId then
      (s, ⟨403, "Unauthorized access"⟩)
    else
      let seatsLeft := newSeatsLeft poster args.seats
      let s1 : Store := { s with posters := s.posters.map (fun p =>
        if p.id == posterId then
          { p with
            eventTitle := jsOrStr args.eventTitle poster.eventTitle,
            eventDate := jsOrStr args.eventDate poster.eventDate,
            location := jsOrStr args.location poster.location,
            time := jsOrStr args.time poster.time,
            description := jsOrStr args.description poster.description,
            seats := jsOrInt args.seats poster.seats,
            seatsLeft := seatsLeft,
            price := jsOrInt args.price poster.price,
            image := match args.image with
                     | some v => v
                     | none => poster.image }
        else p) }
      (s1, ⟨200, "Poster updated successfully"⟩)

/-- `bookTicket` (src/unnamed/part_001 lines 421-461): payment-proof
truthiness check, poster lookup, capacity check, then insert of a `pending`
booking and decrement of `seatsLeft` (set to the value read minus
`numberOfPersons`).  Note the source has no `numberOfPersons < 1` check. -/
def bookTicket (s : Store) (userId : Nat) (posterId : Nat)
    (numberOfPersons : Int) (paymentProof : Option String) : Store × ApiResp :=
  if ! jsTruthyStr paymentProof then
    (s, ⟨400, "Payment proof is required"⟩)
  else
    match s.posters.find? (fun p => p.id == posterId) with
    | none => (s, ⟨404, "Poster not found"⟩)
    | some poster =>
      if poster.seatsLeft < numberOfPersons then
        (s, ⟨400, "Not enough seats available"⟩)
      else
        let booking : TicketBooking :=
          { id := s.nextBookingId, posterId := posterId, userId := userId,
            numberOfPersons := numberOfPersons, paymentProof := paymentProof,
            status := RStatus.pending }
        let s1 : Store := { s with
          ticketBookings := s.ticketBookings ++ [booking],
          nextBookingId := s.nextBookingId + 1 }
        let s2 : Store := { s1 with posters := s1.posters.map (fun p =>
          if p.id == posterId then
            { p with seatsLeft := poster.seatsLeft - numberOfPersons }
          else p) }
        (s2, ⟨201, "Ticket booked successfully"⟩)

/-- `approveTicket` (src/unnamed/part_001 lines 584-632): head admin role
check, booking and poster lookups, ownership check, pending check, then a
single status update. -/
def approveTicket (s : Store) (callerId : Nat) (callerRole : Role)
    (ticketId : Nat) : Store × ApiResp :=
  if callerRole ≠ Role.head_admin then
    (s, ⟨403, "Unauthorized access"⟩)
  else
    match s.ticketBookings.find? (fun b => b.id == ticketId) with
    | none => (s, ⟨404, "Ticket booking not found"⟩)
    | some ticketBooking =>
      match s.posters.find? (fun p => p.id == ticketBooking.posterId) with
      | none => (s, ⟨404, "Associated poster not found"⟩)
      | some poster =>
        if poster.headId ≠ callerId then
          (s, ⟨403, "You can only approve tickets for your own events"⟩)
        else if ticketBooking.status ≠ RStatus.pending then
          (s, ⟨400, "Ticket already " ++ ticketBooking.status.str⟩)
        else
          ({ s with ticketBookings := s.ticketBookings.map (fun (b : TicketBooking) =>
              if b.id == ticketId then { b with status := RStatus.approved }
              else b) },
           ⟨200, "Ticket booking approved"⟩)

/-- `rejectTicket` (src/unnamed/part_001 lines 656-713): same checks as
`approveTicket`, then two writes: `seatsLeft` is set to the value read plus
the booking's stored `numberOfPersons`, and the booking status becomes
`rejected`. -/
def rejectTicket (s : Store) (callerId : Nat) (callerRole : Role)
    (ticketId : Nat) : Store × ApiResp :=
  if callerRole ≠ Role.head_admin then
    (s, ⟨403, "Unauthorized access"⟩)
  else
    match s.ticketBookings.find? (fun b => b.id == ticketId) with
    | none => (s, ⟨404, "Ticket booking not found"⟩)
    | some ticketBooking =>
      match s.posters.find? (fun p => p.id == ticketBooking.posterId) with
      | none => (s, ⟨404, "Associated poster not found"⟩)
      | some poster =>
        if poster.headId ≠ callerId then
          (s, ⟨403, "You can only reject tickets for your own events"⟩)
        else if ticketBooking.status ≠ RStatus.pending then
          (s, ⟨400, "Ticket already " ++ ticketBooking.status.str⟩)
        else
          let s1 : Store := { s with posters := s.posters.map (fun p =>
            if p.id == ticketBooking.posterId then
              { p with seatsLeft := poster.seatsLeft + ticketBooking.numberOfPersons }
            else p) }
          let s2 : Store := { s1 with ticketBookings := s1.ticketBookings.map (fun b =>
            if b.id == ticketId then { b with status := RStatus.rejected }
            else b) }
          (s2, ⟨200, "Ticket booking rejected and seats restored"⟩)

/-- `approveClubRequest` (src/unnamed/part_000 lines 190-239): super admin
check, lookup, pending check, then THREE sequential writes with no
transaction: the request status update, the club insert and the role
promotion.  The `clubs.name` UNIQUE constraint makes the insert throw when a
club with the same name exists; the thrown error is caught and answered with
500, but the status update already ran — the partial state persists. -/
def approveClubRequest (s : Store) (callerRole : Role) (requestId : Nat) :
    Store × ApiResp :=
  if callerRole ≠ Role.super_admin then
    (s, ⟨403, "Unauthorized access"⟩)
  else
    match s.clubRequests.find? (fun r => r.id == requestId) with
    | none => (s, ⟨404, "Club request not found"⟩)
    | some request =>
      if request.status ≠ RStatus.pending then
        (s, ⟨400, "Request already " ++ request.status.str⟩)
      else
        let s1 : Store := { s with clubRequests := s.clubRequests.map (fun r =>
          if r.id == requestId then { r with status := RStatus.approved }
          else r) }
        if s1.clubs.any (fun c => c.name == request.clubName) then
          (s1, ⟨500, "Server error"⟩)
        else
          let club : Club :=
            { id := s1.nextClubId, name := request.clubName,
              headId := request.headId, goal := request.goal,
              description := request.description, financing := request.financing,
              resources := request.resources,
              attractionMethods := request.attractionMethods, rating := 0 }
          let s2 : Store := { s1 with
            clubs := s1.clubs ++ [club],
            nextClubId := s1.nextClubId + 1 }
          let s3 : Store := { s2 with users := s2.users.map (fun u =>
            if u.id == request.headId then { u with role := Role.head_admin }
            else u) }
          (s3, ⟨200, "Club request approved and club created successfully"⟩)

/-- `rejectClubRequest` (src/unnamed/part_000 lines 263-294): super admin
check, lookup, pending check, then a single status update. -/
def rejectClubRequest (s : Store) (callerRole : Role) (requestId : Nat) :
    Store × ApiResp :=
  if callerRole ≠ Role.super_admin then
    (s, ⟨403, "Unauthorized access"⟩)
  else
    match s.clubRequests.find? (fun r => r.id == requestId) with
    | none => (s, ⟨404, "Club request not found"⟩)
    | some request =>
      if request.status ≠ RStatus.pending then
        (s, ⟨400, "Request already " ++ request.status.str⟩)
      else
        ({ s with clubRequests := s.clubRequests.map (fun (r : ClubRequest) =>
            if r.id == requestId then { r with status := RStatus.rejected }
            else r) },
         ⟨200, "Club request rejected"⟩)

/-- `approveEventRequest` (src/src/controllers/eventRequestController.js
lines 238-282): super admin check, lookup, pending check, status update,
event insert (no uniqueness constraint on events, so the insert succeeds). -/
def approveEventRequest (s : Store) (callerRole : Role) (requestId : Nat) :
    Store × ApiResp :=
  if callerRole ≠ Role.super_admin then
    (s, ⟨403, "Unauthorized access"⟩)
  else
    match s.eventRequests.find? (fun r => r.id == requestId) with
    | none => (s, ⟨404, "Event request not found"⟩)
    | some request =>
      if request.status ≠ RStatus.pending then
        (s, ⟨400, "Request already " ++ request.status.str⟩)
      else
        let s1 : Store := { s with eventRequests := s.eventRequests.map (fun r =>
          if r.id == requestId then { r with status := RStatus.approved }
          else r) }
        let ev : Event :=
          { id := s1.nextEventId, clubId := request.clubId,
            headId := request.headId, eventName := request.eventName,
            eventDate := request.eventDate, location := request.location,
            shortDescription := request.shortDescription, goal := request.goal,
            organizers := request.organizers, schedule := request.schedule,
            sponsorship := request.sponsorship }
        ({ s1 with events := s1.events ++ [ev],
                   nextEventId := s1.nextEventId + 1 },
         ⟨200, "Event request approved and event created successfully"⟩)

/-- `rejectEventRequest` (src/src/controllers/eventRequestController.js):
super admin check, lookup, pending check, single status update. -/
def rejectEventRequest (s : Store) (callerRole : Role) (requestId : Nat) :
    Store × ApiResp :=
  if callerRole ≠ Role.super_admin then
    (s, ⟨403, "Unauthorized access"⟩)
  else
    match s.eventRequests.find? (fun r => r.id == requestId) with
    | none => (s, ⟨404, "Event request not found"⟩)
    | some request =>
      if request.status ≠ RStatus.pending then
        (s, ⟨400, "Request already " ++ request.status.str⟩)
      else
        ({ s with eventRequests := s.eventRequests.map (fun (r : EventRequest) =>
            if r.id == requestId then { r with status := RStatus.rejected }
            else r) },
         ⟨200, "Event request rejected"⟩)

/-- `deleteClub` (src/src/controllers/clubController.js lines 233-278): super
admin check, club lookup, then per-poster deletion of bookings, per-post
deletion of likes, bulk deletion of the club's posts, posters, events and
event requests, head role reset, club row deletion. -/
def deleteClub (s : Store) (callerRole : Role) (clubId : Nat) :
    Store × ApiResp :=
  if callerRole ≠ Role.super_admin then
    (s, ⟨403, "Only super admins can delete clubs"⟩)
  else
    match s.clubs.find? (fun c => c.id == clubId) with
    | none => (s, ⟨404, "Club not found"⟩)
    | some club =>
      let clubPosters := s.posters.filter (fun p => p.clubId == clubId)
      let bookings1 := clubPosters.foldl
        (fun acc poster => acc.filter (fun b => b.posterId != poster.id))
        s.ticketBookings
      let clubPosts := s.posts.filter (fun p => p.clubId == some clubId)
      let likes1 := clubPosts.foldl
        (fun acc post => acc.filter (fun l => l.postId != post.id))
        s.postLikes
      let s1 : Store := { s with
        ticketBookings := bookings1,
        postLikes := likes1,
        posts := s.posts.filter (fun p => p.clubId != some clubId),
        posters := s.posters.filter (fun p => p.clubId != clubId),
        events := s.events.filter (fun e => e.clubId != clubId),
        eventRequests := s.eventRequests.filter (fun r => r.clubId != clubId),
        users := s.users.map (fun u =>
          if u.id == club.headId then { u with role := Role.student } else u),
        clubs := s.clubs.filter (fun c => c.id != clubId) }
      (s1, ⟨200, "Club deleted successfully and head admin role reset to student"⟩)

/-- `toggleLikePost` (src/src/controllers/authController.js lines 643-703):
post lookup, existing-like lookup by (postId, userId); if found, delete the
like rows for that pair and set `likes` to the value read minus one,
otherwise insert a like row and set `likes` to the value read plus one. -/
def toggleLikePost (s : Store) (userId : Nat) (postId : Nat) :
    Store × ApiResp :=
  match s.posts.find? (fun p => p.id == postId) with
  | none => (s, ⟨404, "Post not found"⟩)
  | some post =>
    match s.postLikes.find? (fun l => l.postId == postId && l.userId == userId) with
    | some _ =>
      let s1 : Store := { s with postLikes := s.postLikes.filter (fun l =>
        !(l.postId == postId && l.userId == userId)) }
      let s2 : Store := { s1 with posts := s1.posts.map (fun p =>
        if p.id == postId then { p with likes := post.likes - 1 } else p) }
      (s2, ⟨200, "Post unliked successfully"⟩)
    | none =>
      let like : PostLike := { id := s.nextLikeId, postId := postId, userId := userId }
      let s1 : Store := { s with
        postLikes := s.postLikes ++ [like],
        nextLikeId := s.nextLikeId + 1 }
      let s2 : Store := { s1 with posts := s1.posts.map (fun p =>
        if p.id == postId then { p with likes := post.likes + 1 } else p) }
      (s2, ⟨200, "Post liked successfully"⟩)

/-! ### Generic list helpers used by the verification -/

/-- A `find?`-preserving predicate commutes a row update past the lookup. -/
lemma find?_map_comm {α : Type} (f : α → α) (q : α → Bool)
    (h : ∀ a, q (f a) = q a) :
    ∀ l : List α, (l.map f).find? q = (l.find? q).map f := by
  intro l
  induction l with
  | nil => rfl
  | cons a l ih =>
    by_cases ha : q a = true
    · simp [List.find?, h a, ha]
    · simp only [Bool.not_eq_true] at ha
      simp [List.find?, h a, ha, ih]

/-- Looking a row up after a keyed update returns the updated row. -/
lemma find?_map_update {α : Type} (key : α → Nat) (k : Nat) (f : α → α)
    (hf : ∀ a, key (f a) = key a) {l : List α} {a : α}
    (hfind : l.find? (fun x => key x == k) = some a) :
    (l.map (fun x => if key x == k then f x else x)).find?
      (fun x => key x == k) = some (if key a == k then f a else a) := by
  rw [find?_map_comm (fun x => if key x == k then f x else x)
    (fun x => key x == k)
    (fun x => by by_cases h : (key x == k) = true <;> simp [h, hf]) l, hfind]
  rfl

/-- If nothing in the first list matches, a lookup skips over it. -/
lemma find?_none_append {α : Type} (q : α → Bool) {l1 : List α} (l2 : List α)
    (h : l1.find? q = none) : (l1 ++ l2).find? q = l2.find? q := by
  induction l1 with
  | nil => rfl
  | cons a l ih =>
    rw [List.find?_cons] at h
    cases ha : q a with
    | true => rw [ha] at h; exact absurd h (by simp)
    | false =>
      rw [ha] at h
      simpa [List.find?, ha] using ih h

/-- Deleting the rows matching `q` from a list none of whose rows match is a
no-op. -/
lemma filter_not_eq_self_of_find?_none {α : Type} (q : α → Bool) {l : List α}
    (h : l.find? q = none) : l.filter (fun a => !(q a)) = l := by
  rw [List.find?_eq_none] at h
  apply List.filter_eq_self.2
  intro a ha
  simp [h a ha]

/-- After deleting every row matching `q`, a lookup for `q` fails. -/
lemma find?_filter_not_none {α : Type} (q : α → Bool) (l : List α) :
    (l.filter (fun a => !(q a))).find? q = none := by
  rw [List.find?_eq_none]
  intro a ha
  have := List.of_mem_filter ha
  simp at this
  simp [this]

/-- A guarded row update whose guard fails on every row is a no-op. -/
lemma map_if_eq_self {α : Type} (k : α → Bool) (f : α → α) {l : List α}
    (h : ∀ a ∈ l, k a = false) :
    l.map (fun a => if k a then f a else a) = l := by
  induction l with
  | nil => rfl
  | cons a l ih =>
    have ha := h a (List.mem_cons_self a l)
    rw [List.map_cons, if_neg (by simp [ha]),
      ih fun b hb => h b (List.mem_cons_of_mem a hb)]

/-- A successful lookup splits the list at the first matching row. -/
lemma find?_decomp {α : Type} (q : α → Bool) {l : List α} {a : α}
    (h : l.find? q = some a) :
    ∃ l1 l2, l = l1 ++ a :: l2 ∧ ∀ b ∈ l1, q b = false := by
  induction l with
  | nil => exact absurd h (by simp)
  | cons c l ih =>
    cases hc : q c with
    | true =>
      rw [List.find?_cons, hc] at h
      obtain rfl : c = a := Option.some.inj h
      exact ⟨[], l, rfl, by simp⟩
    | false =>
      rw [List.find?_cons, hc] at h
      obtain ⟨l1, l2, rfl, hl1⟩ := ih h
      exact ⟨c :: l1, l2, rfl, by
        intro b hb
        rcases List.mem_cons.1 hb with rfl | hb
        · exact hc
        · exact hl1 b hb⟩

/-- Two rows of a duplicate-free table that share their key coincide. -/
lemma eq_of_mem_of_nodup_key {α : Type} (key : α → Nat) {l : List α}
    (hnd : (l.map key).Nodup) {a b : α} (ha : a ∈ l) (hb : b ∈ l)
    (hk : key a = key b) : a = b :=
  List.inj_on_of_nodup_map hnd ha hb hk

/-- A keyed row update rewrites the split produced by `find?_decomp` when the
key occurs nowhere else. -/
lemma map_update_decomp {α : Type} (key : α → Nat) (f : α → α)
    {l1 l2 : List α} {a : α}
    (h1 : ∀ b ∈ l1, key b ≠ key a) (h2 : ∀ b ∈ l2, key b ≠ key a) :
    (l1 ++ a :: l2).map (fun b => if key b == key a then f b else b) =
      l1 ++ f a :: l2 := by
  rw [List.map_append, List.map_cons,
    map_if_eq_self (fun b => key b == key a) f
      (fun b hb => by simp [h1 b hb]),
    map_if_eq_self (fun b => key b == key a) f
      (fun b hb => by simp [h2 b hb]),
    if_pos (by simp)]

/-! ### The seat-inventory ghost quantity and store well-formedness -/

/-- The seats one booking row currently holds against poster `pid`: its
`numberOfPersons` while it references `pid` and is not rejected. -/
def seatContrib (pid : Nat) (b : TicketBooking) : Int :=
  if b.posterId = pid ∧ b.status ≠ RStatus.rejected then b.numberOfPersons else 0

/-- Seats held against poster `pid` by all non-rejected bookings. -/
def reservedSum (pid : Nat) : List TicketBooking → Int
  | [] => 0
  | b :: l => seatContrib pid b + reservedSum pid l

lemma reservedSum_append (pid : Nat) (l1 l2 : List TicketBooking) :
    reservedSum pid (l1 ++ l2) = reservedSum pid l1 + reservedSum pid l2 := by
  induction l1 with
  | nil => simp [reservedSum]
  | cons b l ih =>
    simp [reservedSum, ih, add_assoc]

lemma seatContrib_nonneg (pid : Nat) {b : TicketBooking}
    (h : 0 ≤ b.numberOfPersons) : 0 ≤ seatContrib pid b := by
  unfold seatContrib
  split
  · exact h
  · exact le_refl 0

lemma reservedSum_nonneg (pid : Nat) {l : List TicketBooking}
    (h : ∀ b ∈ l, 0 ≤ b.numberOfPersons) : 0 ≤ reservedSum pid l := by
  induction l with
  | nil => exact le_refl 0
  | cons b l ih =>
    have hb := seatContrib_nonneg pid (h b (List.mem_cons_self b l))
    have hl := ih fun c hc => h c (List.mem_cons_of_mem b hc)
    simpa [reservedSum] using add_nonneg hb hl

/-- A booking update that touches no row with `seatContrib`-relevant changes
keeps `reservedSum`. -/
lemma reservedSum_map_congr (pid : Nat) (f : TicketBooking → TicketBooking)
    {l : List TicketBooking}
    (h : ∀ b ∈ l, seatContrib pid (f b) = seatContrib pid b) :
    reservedSum pid (l.map f) = reservedSum pid l := by
  induction l with
  | nil => rfl
  | cons b l ih =>
    simp only [List.map_cons, reservedSum, h b (List.mem_cons_self b l),
      ih fun c hc => h c (List.mem_cons_of_mem b hc)]

/-- Store well-formedness for the ticket workflow: poster and booking primary
keys are duplicate-free, booking ids stay below the auto-increment counter,
every booking is for a nonnegative number of persons, and every poster has
nonnegative free seats which, together with the seats its non-rejected
bookings hold, fit in its capacity. -/
def SeatInv (s : Store) : Prop :=
  (s.posters.map Poster.id).Nodup ∧
  (s.ticketBookings.map TicketBooking.id).Nodup ∧
  (∀ b ∈ s.ticketBookings, b.id < s.nextBookingId) ∧
  (∀ b ∈ s.ticketBookings, 0 ≤ b.numberOfPersons) ∧
  (∀ p ∈ s.posters, 0 ≤ p.seatsLeft ∧
    p.seatsLeft + reservedSum p.id s.ticketBookings ≤ p.seats)

instance (s : Store) : Decidable (SeatInv s) := by
  unfold SeatInv
  infer_instance

/-! ### Path equations for the ticket operations -/

lemma bookTicket_success (s : Store) (uid pid : Nat) (n : Int)
    (proof : Option String) {poster : Poster}
    (hpp : jsTruthyStr proof = true)
    (hfind : s.posters.find? (fun p => p.id == pid) = some poster)
    (hcap : ¬ poster.seatsLeft < n) :
    bookTicket s uid pid n proof =
      ({ s with
          ticketBookings := s.ticketBookings ++
            [{ id := s.nextBookingId, posterId := pid, userId := uid,
               numberOfPersons := n, paymentProof := proof,
               status := RStatus.pending }],
          nextBookingId := s.nextBookingId + 1,
          posters := s.posters.map (fun p =>
            if p.id == pid then { p with seatsLeft := poster.seatsLeft - n }
            else p) },
       ⟨201, "Ticket booked successfully"⟩) := by
  unfold bookTicket
  rw [hpp, hfind]
  simp [hcap]

lemma rejectTicket_success (s : Store) (cid tid : Nat)
    {tb : TicketBooking} {poster : Poster}
    (hft : s.ticketBookings.find? (fun b => b.id == tid) = some tb)
    (hfp : s.posters.find? (fun p => p.id == tb.posterId) = some poster)
    (hown : poster.headId = cid)
    (hpend : tb.status = RStatus.pending) :
    rejectTicket s cid Role.head_admin tid =
      ({ s with
          posters := s.posters.map (fun p =>
            if p.id == tb.posterId then
              { p with seatsLeft := poster.seatsLeft + tb.numberOfPersons }
            else p),
          ticketBookings := s.ticketBookings.map (fun b =>
            if b.id == tid then { b with status := RStatus.rejected } else b) },
       ⟨200, "Ticket booking rejected and seats restored"⟩) := by
  unfold rejectTicket
  simp only [hft]
  simp only [hfp]
  simp [hown, hpend]

lemma approveTicket_success (s : Store) (cid tid : Nat)
    {tb : TicketBooking} {poster : Poster}
    (hft : s.ticketBookings.find? (fun b => b.id == tid) = some tb)
    (hfp : s.posters.find? (fun p => p.id == tb.posterId) = some poster)
    (hown : poster.headId = cid)
    (hpend : tb.status = RStatus.pending) :
    approveTicket s cid Role.head_admin tid =
      ({ s with
          ticketBookings := s.ticketBookings.map (fun b =>
            if b.id == tid then { b with status := RStatus.approved } else b) },
       ⟨200, "Ticket booking approved"⟩) := by
  unfold approveTicket
  simp only [hft]
  simp only [hfp]
  simp [hown, hpend]

/-- A keyed row update keeps the key column of the table. -/
lemma map_key_of_update {α : Type} (key : α → Nat) (g : α → α)
    (h : ∀ a, key (g a) = key a) (l : List α) :
    (l.map g).map key = l.map key := by
  induction l with
  | nil => rfl
  | cons a l ih => simp [h a, ih]

/-- In a duplicate-free table split around a row, no row of the right part
shares the split row's key. -/
lemma key_not_mem_right {α : Type} (key : α → Nat) {l1 l2 : List α} {a : α}
    (hnd : (((l1 ++ a :: l2).map key)).Nodup) : ∀ b ∈ l2, key b ≠ key a := by
  rw [List.map_append, List.map_cons, List.nodup_append] at hnd
  have hcons := hnd.2.1
  have hnotmem : key a ∉ l2.map key := (List.nodup_cons.1 hcons).1
  intro b hb h
  exact hnotmem (h ▸ List.mem_map_of_mem key hb)

/-! ### Preservation of the seat invariant by the ticket operations -/

lemma seatInv_bookTicket (s : Store) (uid pid : Nat) (n : Int)
    (proof : Option String) (hs : SeatInv s) (hn : 0 ≤ n) :
    SeatInv (bookTicket s uid pid n proof).1 := by
  obtain ⟨hpnd, hbnd, hlt, hnn, hinv⟩ := hs
  cases hpp : jsTruthyStr proof with
  | false =>
    unfold bookTicket
    rw [hpp]
    exact ⟨hpnd, hbnd, hlt, hnn, hinv⟩
  | true =>
    cases hfind : s.posters.find? (fun p => p.id == pid) with
    | none =>
      unfold bookTicket
      rw [hpp, hfind]
      exact ⟨hpnd, hbnd, hlt, hnn, hinv⟩
    | some poster =>
      by_cases hcap : poster.seatsLeft < n
      · unfold bookTicket
        rw [hpp, hfind]
        simp only [hcap, if_true, Bool.not_true, Bool.false_eq_true, if_false]
        exact ⟨hpnd, hbnd, hlt, hnn, hinv⟩
      · rw [bookTicket_success s uid pid n proof hpp hfind hcap]
        have hpmem : poster ∈ s.posters := List.mem_of_find?_eq_some hfind
        have hpid : poster.id = pid := by simpa using List.find?_some hfind
        refine ⟨?_, ?_, ?_, ?_, ?_⟩
        · rw [map_key_of_update Poster.id _ (fun p => by split <;> rfl)]
          exact hpnd
        · rw [List.map_append, List.nodup_append]
          refine ⟨hbnd, List.nodup_singleton _, ?_⟩
          intro x hx hx2
          obtain ⟨b, hb, rfl⟩ := List.mem_map.1 hx
          simp only [List.map_cons, List.map_nil, List.mem_singleton] at hx2
          exact absurd (hx2 ▸ hlt b hb) (lt_irrefl _)
        · intro b hb
          rcases List.mem_append.1 hb with hb | hb
          · exact Nat.lt_succ_of_lt (hlt b hb)
          · simp only [List.mem_singleton] at hb
            subst hb
            exact Nat.lt_succ_self _
        · intro b hb
          rcases List.mem_append.1 hb with hb | hb
          · exact hnn b hb
          · simp only [List.mem_singleton] at hb
            subst hb
            exact hn
        · intro q hq
          obtain ⟨p, hp, rfl⟩ := List.mem_map.1 hq
          have hres : ∀ k, reservedSum k (s.ticketBookings ++
              [{ id := s.nextBookingId, posterId := pid, userId := uid,
                 numberOfPersons := n, paymentProof := proof,
                 status := RStatus.pending }]) =
              reservedSum k s.ticketBookings + (if pid = k then n else 0) := by
            intro k
            rw [reservedSum_append]
            simp [reservedSum, seatContrib]
          by_cases hid : (p.id == pid) = true
          · have hid' : p.id = pid := by simpa using hid
            have hpe : p = poster :=
              eq_of_mem_of_nodup_key Poster.id hpnd hp hpmem
                (hid'.trans hpid.symm)
            subst hpe
            rw [if_pos hid]
            have h2 := (hinv p hp).2
            constructor
            · show (0 : Int) ≤ p.seatsLeft - n
              omega
            · show p.seatsLeft - n + reservedSum p.id _ ≤ p.seats
              rw [hid'] at h2 ⊢
              rw [hres, if_pos rfl]
              omega
          · rw [if_neg hid]
            have hid' : p.id ≠ pid := by simpa using hid
            have hmain := hinv p hp
            refine ⟨hmain.1, ?_⟩
            rw [hres, if_neg (fun h => hid' h.symm)]
            omega

lemma seatInv_approveTicket (s : Store) (cid : Nat) (role : Role) (tid : Nat)
    (hs : SeatInv s) : SeatInv (approveTicket s cid role tid).1 := by
  obtain ⟨hpnd, hbnd, hlt, hnn, hinv⟩ := hs
  by_cases hrole : role = Role.head_admin
  case neg =>
    unfold approveTicket
    rw [if_pos hrole]
    exact ⟨hpnd, hbnd, hlt, hnn, hinv⟩
  case pos =>
    subst hrole
    cases hft : s.ticketBookings.find? (fun b => b.id == tid) with
    | none =>
      unfold approveTicket
      simp only [hft, ne_eq, not_true_eq_false, if_false]
      exact ⟨hpnd, hbnd, hlt, hnn, hinv⟩
    | some tb =>
      cases hfp : s.posters.find? (fun p => p.id == tb.posterId) with
      | none =>
        unfold approveTicket
        simp only [hft]
        simp only [hfp, ne_eq, not_true_eq_false, if_false]
        exact ⟨hpnd, hbnd, hlt, hnn, hinv⟩
      | some poster =>
        by_cases hown : poster.headId = cid
        case neg =>
          unfold approveTicket
          simp only [hft]
          simp only [hfp, ne_eq, not_true_eq_false, if_false, hown,
            not_false_eq_true, if_true]
          exact ⟨hpnd, hbnd, hlt, hnn, hinv⟩
        case pos =>
          by_cases hpend : tb.status = RStatus.pending
          case neg =>
            unfold approveTicket
            simp only [hft]
            simp only [hfp, ne_eq, not_true_eq_false, if_false, hown, hpend,
              not_false_eq_true, if_true]
            exact ⟨hpnd, hbnd, hlt, hnn, hinv⟩
          case pos =>
            rw [approveTicket_success s cid tid hft hfp hown hpend]
            have htbmem : tb ∈ s.ticketBookings := List.mem_of_find?_eq_some hft
            have htbid : tb.id = tid := by simpa using List.find?_some hft
            refine ⟨hpnd, ?_, ?_, ?_, ?_⟩
            · rw [map_key_of_update TicketBooking.id _
                (fun b => by split <;> rfl)]
              exact hbnd
            · intro b hb
              obtain ⟨c, hc, rfl⟩ := List.mem_map.1 hb
              have : TicketBooking.id (if (c.id == tid) = true then
                  { c with status := RStatus.approved } else c) = c.id := by
                split <;> rfl
              rw [this]
              exact hlt c hc
            · intro b hb
              obtain ⟨c, hc, rfl⟩ := List.mem_map.1 hb
              have : TicketBooking.numberOfPersons (if (c.id == tid) = true then
                  { c with status := RStatus.approved } else c) =
                  c.numberOfPersons := by
                split <;> rfl
              rw [this]
              exact hnn c hc
            · intro p hp
              have hres : ∀ k, reservedSum k (s.ticketBookings.map (fun b =>
                  if b.id == tid then { b with status := RStatus.approved }
                  else b)) = reservedSum k s.ticketBookings := by
                intro k
                apply reservedSum_map_congr
                intro b hb
                by_cases hbid : (b.id == tid) = true
                · have : b = tb := eq_of_mem_of_nodup_key TicketBooking.id hbnd
                    hb htbmem (by rw [htbid]; simpa using hbid)
                  subst this
                  simp [hbid, seatContrib, hpend]
                · simp [hbid]
              rw [hres]
              exact hinv p hp

lemma seatInv_rejectTicket (s : Store) (cid : Nat) (role : Role) (tid : Nat)
    (hs : SeatInv s) : SeatInv (rejectTicket s cid role tid).1 := by
  obtain ⟨hpnd, hbnd, hlt, hnn, hinv⟩ := hs
  by_cases hrole : role = Role.head_admin
  case neg =>
    unfold rejectTicket
    rw [if_pos hrole]
    exact ⟨hpnd, hbnd, hlt, hnn, hinv⟩
  case pos =>
    subst hrole
    cases hft : s.ticketBookings.find? (fun b => b.id == tid) with
    | none =>
      unfold rejectTicket
      simp only [hft, ne_eq, not_true_eq_false, if_false]
      exact ⟨hpnd, hbnd, hlt, hnn, hinv⟩
    | some tb =>
      cases hfp : s.posters.find? (fun p => p.id == tb.posterId) with
      | none =>
        unfold rejectTicket
        simp only [hft]
        simp only [hfp, ne_eq, not_true_eq_false, if_false]
        exact ⟨hpnd, hbnd, hlt, hnn, hinv⟩
      | some poster =>
        by_cases hown : poster.headId = cid
        case neg =>
          unfold rejectTicket
          simp only [hft]
          simp only [hfp, ne_eq, not_true_eq_false, if_false, hown,
            not_false_eq_true, if_true]
          exact ⟨hpnd, hbnd, hlt, hnn, hinv⟩
        case pos =>
          by_cases hpend : tb.status = RStatus.pending
          case neg =>
            unfold rejectTicket
            simp only [hft]
            simp only [hfp, ne_eq, not_true_eq_false, if_false, hown, hpend,
              not_false_eq_true, if_true]
            exact ⟨hpnd, hbnd, hlt, hnn, hinv⟩
          case pos =>
            rw [rejectTicket_success s cid tid hft hfp hown hpend]
            have htbmem : tb ∈ s.ticketBookings := List.mem_of_find?_eq_some hft
            have htbid : tb.id = tid := by simpa using List.find?_some hft
            subst htbid
            have hpmem : poster ∈ s.posters := List.mem_of_find?_eq_some hfp
            have hpidq : poster.id = tb.posterId := by
              simpa using List.find?_some hfp
            obtain ⟨l1, l2, hdec, hl1⟩ := find?_decomp _ hft
            have hl1' : ∀ b ∈ l1, b.id ≠ tb.id := fun b hb => by
              simpa using hl1 b hb
            have hl2' : ∀ b ∈ l2, b.id ≠ tb.id := by
              rw [hdec] at hbnd
              exact key_not_mem_right TicketBooking.id hbnd
            rw [hdec] at hbnd ⊢
            have hmap : (l1 ++ tb :: l2).map (fun b =>
                if b.id == tb.id then { b with status := RStatus.rejected }
                else b) = l1 ++ { tb with status := RStatus.rejected } :: l2 :=
              map_update_decomp TicketBooking.id _ hl1' hl2'
            have hres : ∀ k, reservedSum k
                (l1 ++ { tb with status := RStatus.rejected } :: l2) +
                seatContrib k tb = reservedSum k (l1 ++ tb :: l2) := by
              intro k
              rw [reservedSum_append, reservedSum_append]
              have : seatContrib k { tb with status := RStatus.rejected } = 0 := by
                simp [seatContrib]
              simp only [reservedSum, this]
              ring
            have hcontrib : ∀ k, seatContrib k tb =
                if tb.posterId = k then tb.numberOfPersons else 0 := by
              intro k
              simp [seatContrib, hpend]
            refine ⟨?_, ?_, ?_, ?_, ?_⟩
            · rw [map_key_of_update Poster.id _ (fun p => by split <;> rfl)]
              exact hpnd
            · rw [hmap, List.map_append, List.map_cons]
              rw [List.map_append, List.map_cons] at hbnd
              simpa using hbnd
            · rw [hmap]
              rw [hdec] at hlt
              intro b hb
              rcases List.mem_append.1 hb with hb | hb
              · exact hlt b (List.mem_append.2 (Or.inl hb))
              · rcases List.mem_cons.1 hb with rfl | hb
                · exact hlt tb (List.mem_append.2 (Or.inr (List.mem_cons_self _ _)))
                · exact hlt b (List.mem_append.2 (Or.inr (List.mem_cons_of_mem _ hb)))
            · rw [hmap]
              rw [hdec] at hnn
              intro b hb
              rcases List.mem_append.1 hb with hb | hb
              · exact hnn b (List.mem_append.2 (Or.inl hb))
              · rcases List.mem_cons.1 hb with rfl | hb
                · exact hnn tb (List.mem_append.2 (Or.inr (List.mem_cons_self _ _)))
                · exact hnn b (List.mem_append.2 (Or.inr (List.mem_cons_of_mem _ hb)))
            · rw [hmap]
              intro q hq
              obtain ⟨p, hp, rfl⟩ := List.mem_map.1 hq
              have hn0 : 0 ≤ tb.numberOfPersons :=
                hnn tb (hdec ▸ htbmem)
              by_cases hid : (p.id == tb.posterId) = true
              · have hid' : p.id = tb.posterId := by simpa using hid
                have hpe : p = poster :=
                  eq_of_mem_of_nodup_key Poster.id hpnd hp hpmem
                    (hid'.trans hpidq.symm)
                subst hpe
                rw [if_pos hid]
                have h2 := (hinv p hp).2
                rw [hdec] at h2
                have h3 := hres p.id
                rw [hcontrib p.id, if_pos hid'.symm] at h3
                constructor
                · show (0 : Int) ≤ p.seatsLeft + tb.numberOfPersons
                  have := (hinv p hp).1
                  omega
                · show p.seatsLeft + tb.numberOfPersons +
                    reservedSum p.id (l1 ++ { tb with status := RStatus.rejected } :: l2) ≤
                    p.seats
                  omega
              · rw [if_neg hid]
                have hid' : p.id ≠ tb.posterId := by simpa using hid
                have h2 := (hinv p hp).2
                rw [hdec] at h2
                have h3 := hres p.id
                rw [hcontrib p.id, if_neg (fun h => hid' h.symm)] at h3
                refine ⟨(hinv p hp).1, ?_⟩
                show p.seatsLeft + reservedSum p.id
                  (l1 ++ { tb with status := RStatus.rejected } :: l2) ≤ p.seats
                omega

/-! ### Operation sequences over the poster/ticket workflow -/

/-- One client-visible operation of the poster/ticket workflow, carrying the
caller identity and role the auth middleware would provide. -/
inductive POp where
  | book (userId posterId : Nat) (n : Int) (proof : Option String)
  | approve (callerId : Nat) (callerRole : Role) (ticketId : Nat)
  | reject (callerId : Nat) (callerRole : Role) (ticketId : Nat)
  | update (callerId : Nat) (callerRole : Role) (posterId : Nat) (args : UpdateArgs)
deriving DecidableEq

/-- The store after one operation (the HTTP response is dropped). -/
def applyOp (s : Store) : POp → Store
  | .book uid pid n proof => (bookTicket s uid pid n proof).1
  | .approve cid role tid => (approveTicket s cid role tid).1
  | .reject cid role tid => (rejectTicket s cid role tid).1
  | .update cid role pid args => (updatePoster s cid role pid args).1

/-- The store after a sequence of operations. -/
def applyOps (s : Store) (ops : List POp) : Store := ops.foldl applyOp s

/-- Booking / approval / rejection operations, with bookings for at least one
person (the data model's `numberOfPersons ≥ 1`, which the source never
enforces); poster updates excluded. -/
def POp.core : POp → Prop
  | .book _ _ n _ => 1 ≤ n
  | .approve _ _ _ => True
  | .reject _ _ _ => True
  | .update _ _ _ _ => False

instance : DecidablePred POp.core := by
  intro op
  cases op <;> unfold POp.core <;> infer_instance

lemma seatInv_applyOp (s : Store) (op : POp) (hs : SeatInv s)
    (hop : op.core) : SeatInv (applyOp s op) := by
  cases op with
  | book uid pid n proof =>
    exact seatInv_bookTicket s uid pid n proof hs (le_trans zero_le_one hop)
  | approve cid role tid => exact seatInv_approveTicket s cid role tid hs
  | reject cid role tid => exact seatInv_rejectTicket s cid role tid hs
  | update cid role pid args => exact hop.elim

lemma seatInv_applyOps (s : Store) (ops : List POp) (hs : SeatInv s)
    (hops : ∀ op ∈ ops, op.core) : SeatInv (applyOps s ops) := by
  induction ops generalizing s with
  | nil => exact hs
  | cons op ops ih =>
    exact ih (applyOp s op)
      (seatInv_applyOp s op hs (hops op (List.mem_cons_self _ _)))
      fun o ho => hops o (List.mem_cons_of_mem _ ho)

/-! ### Concrete stores used by witnesses and counterexamples -/

/-- Base store: a head admin (id 1), a student (id 2), one club and one event
owned by the head admin; no posters, bookings, posts or likes yet. -/
def exBase : Store where
  users := [⟨1, "h", "h", "h@u", Role.head_admin⟩,
            ⟨2, "s", "s", "s@u", Role.student⟩]
  clubRequests := []
  clubs := [⟨1, "c", 1, "g", "d", "f", none, "m", 0⟩]
  eventRequests := []
  events := [⟨1, 1, 1, "e", "d", "l", "sd", "g", "o", "sch", none⟩]
  posters := []
  ticketBookings := []
  posts := []
  postLikes := []
  nextClubId := 2
  nextEventId := 2
  nextPosterId := 1
  nextBookingId := 1
  nextLikeId := 1

/-- `exBase` after the head admin freshly creates a 10-seat poster
(`seatsLeft = seats = 10`). -/
def exFresh : Store :=
  (createPoster exBase 1 Role.head_admin 1 "t" "d" "l" "tm" "ds" 10 5 none).1

/-- An update request body carrying only `seats: 5`. -/
def exShrinkArgs : UpdateArgs :=
  ⟨none, none, none, none, none, some 5, none, none⟩

/-! ### Claim C1 -/

/-- C1 (amended): starting from any store satisfying the booking-workflow
well-formedness `SeatInv` — in particular one whose freshly created poster
has `seatsLeft = seats` and no bookings yet — every sequence of `bookTicket`
(with `numberOfPersons ≥ 1`), `approveTicket` and `rejectTicket` operations
keeps `0 ≤ seatsLeft ≤ seats` on every stored poster row.  `updatePoster`
must be excluded from the sequence: after a capacity shrink (clamped at 0) a
rejection restores the booked seats on top and exceeds `seats` — see the
counterexample. -/
theorem c1_seat_bounds_book_approve_reject (s : Store) (ops : List POp)
    (hs : SeatInv s) (hops : ∀ op ∈ ops, op.core) :
    ∀ p ∈ (applyOps s ops).posters,
      0 ≤ p.seatsLeft ∧ p.seatsLeft ≤ p.seats := by
  obtain ⟨_, _, _, hnn, hinv⟩ := seatInv_applyOps s ops hs hops
  intro p hp
  have h := hinv p hp
  have hres := reservedSum_nonneg p.id hnn
  exact ⟨h.1, by omega⟩

/-- C1 counterexample: from a freshly created poster with
`seats = seatsLeft = 10`, booking 6 seats, then updating the poster's `seats`
to 5 (the source clamps `seatsLeft` at 0), then rejecting the booking leaves
the stored row at `seats = 5`, `seatsLeft = 6`: the claimed invariant
`seatsLeft ≤ seats` fails for this `bookTicket`/`updatePoster`/`rejectTicket`
sequence. -/
theorem c1_counterexample :
    exFresh.posters.map (fun p => (p.seats, p.seatsLeft)) = [(10, 10)] ∧
    (applyOps exFresh [POp.book 2 1 6 (some "p"),
        POp.update 1 Role.head_admin 1 exShrinkArgs,
        POp.reject 1 Role.head_admin 1]).posters.map
      (fun p => (p.seats, p.seatsLeft)) = [(5, 6)] ∧
    ¬ (∀ p ∈ (applyOps exFresh [POp.book 2 1 6 (some "p"),
        POp.update 1 Role.head_admin 1 exShrinkArgs,
        POp.reject 1 Role.head_admin 1]).posters,
        0 ≤ p.seatsLeft ∧ p.seatsLeft ≤ p.seats) := by
  refine ⟨by decide, by decide, by decide⟩

/-- Witness for C1: the concrete fresh store satisfies `SeatInv`, and the
theorem applies to a concrete book-then-approve sequence. -/
theorem c1_seat_bounds_witness :
    SeatInv exFresh ∧
    (∀ p ∈ (applyOps exFresh [POp.book 2 1 6 (some "p"),
        POp.approve 1 Role.head_admin 1]).posters,
      0 ≤ p.seatsLeft ∧ p.seatsLeft ≤ p.seats) :=
  ⟨by decide,
   c1_seat_bounds_book_approve_reject exFresh
     [POp.book 2 1 6 (some "p"), POp.approve 1 Role.head_admin 1]
     (by decide) (by decide)⟩

/-! ### Claim C2 -/

/-- C2 (amended): `bookTicket` fails with 400 "Payment proof is required"
(InvalidInput) when no truthy payment proof is supplied; with a payment proof
it fails 404 (NotFound) when the poster is absent, and 400 "Not enough seats
available" (InsufficientCapacity) when `numberOfPersons` exceeds `seatsLeft`;
in each failure case the store is returned unchanged — no booking row, poster
untouched.  The source has no `numberOfPersons < 1` check (see the
counterexample). -/
theorem c2_bookTicket_failures (s : Store) (uid pid : Nat) (n : Int)
    (proof : Option String) :
    (jsTruthyStr proof = false →
      bookTicket s uid pid n proof = (s, ⟨400, "Payment proof is required"⟩)) ∧
    (jsTruthyStr proof = true →
      s.posters.find? (fun p => p.id == pid) = none →
      bookTicket s uid pid n proof = (s, ⟨404, "Poster not found"⟩)) ∧
    (∀ poster, jsTruthyStr proof = true →
      s.posters.find? (fun p => p.id == pid) = some poster →
      poster.seatsLeft < n →
      bookTicket s uid pid n proof =
        (s, ⟨400, "Not enough seats available"⟩)) := by
  refine ⟨?_, ?_, ?_⟩
  · intro h
    unfold bookTicket
    rw [h]
    rfl
  · intro h1 h2
    unfold bookTicket
    rw [h1, h2]
    rfl
  · intro poster h1 h2 h3
    unfold bookTicket
    rw [h1, h2]
    simp [h3]

/-- C2 counterexample: on a fresh 10-seat poster, `bookTicket` with
`numberOfPersons = 0` (which is `< 1` and should fail InvalidInput per the
claim) succeeds with 201 and creates a pending booking row for 0 persons. -/
theorem c2_counterexample :
    (bookTicket exFresh 2 1 0 (some "p")).2 =
      ⟨201, "Ticket booked successfully"⟩ ∧
    (bookTicket exFresh 2 1 0 (some "p")).1.ticketBookings.map
      (fun b => (b.posterId, b.userId, b.numberOfPersons, b.status)) =
      [(1, 2, 0, RStatus.pending)] := by
  exact ⟨by decide, by decide⟩

/-- Witness for C2 at a concrete input: a booking on an absent poster id
fails 404 and leaves the store unchanged. -/
theorem c2_bookTicket_failures_witness :
    jsTruthyStr (some "p") = true ∧
    exFresh.posters.find? (fun p => p.id == 7) = none ∧
    bookTicket exFresh 2 7 1 (some "p") =
      (exFresh, ⟨404, "Poster not found"⟩) :=
  ⟨by decide, by decide,
   (c2_bookTicket_failures exFresh 2 7 1 (some "p")).2.1 (by decide) (by decide)⟩

/-! ### Claim C4 -/

/-- C4: rejecting a pending booking as the head of its poster answers 200,
marks the booking `rejected`, and adds exactly the booking's stored
`numberOfPersons` to the poster's current `seatsLeft` — the restored amount
comes from the booking row fixed at booking time, whatever the poster's
`seats`/`seatsLeft` are now. -/
theorem c4_reject_restores_booked_amount (s : Store) (tid : Nat)
    {tb : TicketBooking} {poster : Poster}
    (hft : s.ticketBookings.find? (fun b => b.id == tid) = some tb)
    (hfp : s.posters.find? (fun p => p.id == tb.posterId) = some poster)
    (hpend : tb.status = RStatus.pending) :
    (rejectTicket s poster.headId Role.head_admin tid).2 =
      ⟨200, "Ticket booking rejected and seats restored"⟩ ∧
    (rejectTicket s poster.headId Role.head_admin tid).1.posters.find?
      (fun p => p.id == tb.posterId) =
      some { poster with
        seatsLeft := poster.seatsLeft + tb.numberOfPersons } ∧
    (rejectTicket s poster.headId Role.head_admin tid).1.ticketBookings.find?
      (fun b => b.id == tid) = some { tb with status := RStatus.rejected } := by
  rw [rejectTicket_success s poster.headId tid hft hfp rfl hpend]
  have hpid : poster.id = tb.posterId := by simpa using List.find?_some hfp
  have htid : tb.id = tid := by simpa using List.find?_some hft
  refine ⟨rfl, ?_, ?_⟩
  · show (s.posters.map _).find? _ = _
    rw [find?_map_comm _ _ (fun p => by split <;> rfl) s.posters, hfp]
    simp [hpid]
  · show (s.ticketBookings.map _).find? _ = _
    rw [find?_map_comm _ _ (fun b => by split <;> rfl) s.ticketBookings, hft]
    simp [htid]

/-- The fresh store after a booking of 6 seats by the student. -/
def exBooked : Store := applyOps exFresh [POp.book 2 1 6 (some "p")]

/-- Witness for C4: rejecting the concrete pending 6-person booking restores
the poster from 4 free seats back to 10. -/
theorem c4_reject_restores_witness :
    (rejectTicket exBooked 1 Role.head_admin 1).2 =
      ⟨200, "Ticket booking rejected and seats restored"⟩ ∧
    (rejectTicket exBooked 1 Role.head_admin 1).1.posters.map
      (fun p => p.seatsLeft) = [10] :=
  ⟨(@c4_reject_restores_booked_amount exBooked 1
      ⟨1, 1, 2, 6, some "p", RStatus.pending⟩
      ⟨1, 1, 1, 1, "t", "d", "l", "tm", "ds", 10, 4, 5, none⟩
      (by decide) (by decide) rfl).1,
   by decide⟩

/-! ### Claims C6 and C10 -/

lemma updatePoster_success (s : Store) (pid : Nat) {poster : Poster}
    (args : UpdateArgs)
    (hfind : s.posters.find? (fun p => p.id == pid) = some poster) :
    updatePoster s poster.headId Role.head_admin pid args =
      ({ s with posters := s.posters.map (fun p =>
          if p.id == pid then
            { p with
              eventTitle := jsOrStr args.eventTitle poster.eventTitle,
              eventDate := jsOrStr args.eventDate poster.eventDate,
              location := jsOrStr args.location poster.location,
              time := jsOrStr args.time poster.time,
              description := jsOrStr args.description poster.description,
              seats := jsOrInt args.seats poster.seats,
              seatsLeft := newSeatsLeft poster args.seats,
              price := jsOrInt args.price poster.price,
              image := match args.image with
                       | some v => v
                       | none => poster.image }
          else p) },
       ⟨200, "Poster updated successfully"⟩) := by
  unfold updatePoster
  simp only [hfind]
  simp

/-- The clamp in `updatePoster` equals a `max` with 0 whenever the supplied
seats value is truthy and the stored `seatsLeft` is nonnegative. -/
lemma newSeatsLeft_eq_max (poster : Poster) (S : Int) (hS0 : S ≠ 0)
    (hleft : 0 ≤ poster.seatsLeft) :
    newSeatsLeft poster (some S) =
      max 0 (poster.seatsLeft + (S - poster.seats)) := by
  show (if S ≠ 0 ∧ S ≠ poster.seats then
      let d := poster.seatsLeft + (S - poster.seats)
      if d < 0 then 0 else d
    else poster.seatsLeft) = max 0 (poster.seatsLeft + (S - poster.seats))
  by_cases hSe : S = poster.seats
  · rw [if_neg fun h => h.2 hSe]
    omega
  · rw [if_pos ⟨hS0, hSe⟩]
    dsimp only
    split <;> omega

/-- C6: `updatePoster` by the owning head admin with a (truthy) new seats
value S answers 200, sets `seats` to S, and sets `seatsLeft` to
`old seatsLeft + (S - old seats)` clamped below at 0. -/
theorem c6_update_rederives_seatsLeft (s : Store) (pid : Nat) (S : Int)
    {poster : Poster} (args : UpdateArgs)
    (hfind : s.posters.find? (fun p => p.id == pid) = some poster)
    (hS : args.seats = some S) (hS0 : S ≠ 0) (hleft : 0 ≤ poster.seatsLeft) :
    (updatePoster s poster.headId Role.head_admin pid args).2 =
      ⟨200, "Poster updated successfully"⟩ ∧
    ∃ q, (updatePoster s poster.headId Role.head_admin pid args).1.posters.find?
        (fun p => p.id == pid) = some q ∧
      q.seats = S ∧
      q.seatsLeft = max 0 (poster.seatsLeft + (S - poster.seats)) := by
  rw [updatePoster_success s pid args hfind]
  have hpid : (poster.id == pid) = true := by
    simpa using List.find?_some hfind
  refine ⟨rfl, _,
    find?_map_update Poster.id pid _ (fun a => by split <;> rfl) hfind, ?_, ?_⟩
  · rw [if_pos hpid]
    show jsOrInt args.seats poster.seats = S
    rw [hS]
    show (if S = 0 then poster.seats else S) = S
    rw [if_neg hS0]
  · rw [if_pos hpid]
    show newSeatsLeft poster args.seats = _
    rw [hS]
    exact newSeatsLeft_eq_max poster S hS0 hleft

/-- Witness for C6 at the spec scenario-B numbers: a poster with `seats = 10`
and `seatsLeft = 4` updated to `seats = 5` ends with `seatsLeft = 0`. -/
theorem c6_update_rederives_witness :
    (updatePoster exBooked 1 Role.head_admin 1 exShrinkArgs).2 =
      ⟨200, "Poster updated successfully"⟩ ∧
    (updatePoster exBooked 1 Role.head_admin 1 exShrinkArgs).1.posters.map
      (fun p => (p.seats, p.seatsLeft)) = [(5, 0)] :=
  ⟨(@c6_update_rederives_seatsLeft exBooked 1 5
      ⟨1, 1, 1, 1, "t", "d", "l", "tm", "ds", 10, 4, 5, none⟩ exShrinkArgs
      (by decide) rfl (by decide) (by decide)).1,
   by decide⟩

/-- C10: a supplied seats value of 0 is falsy for the source (both in
`seats && seats !== poster.seats` and in `seats || poster.seats`), so
`updatePoster` with `seats: 0` leaves both `seats` and `seatsLeft`
unchanged â capacity can never be set to zero through an update. -/
theorem c10_update_seats_zero_ignored (s : Store) (pid : Nat)
    {poster : Poster} (args : UpdateArgs)
    (hfind : s.posters.find? (fun p => p.id == pid) = some poster)
    (hS : args.seats = some 0) :
    (updatePoster s poster.headId Role.head_admin pid args).2 =
      ⟨200, "Poster updated successfully"⟩ ∧
    ∃ q, (updatePoster s poster.headId Role.head_admin pid args).1.posters.find?
        (fun p => p.id == pid) = some q ∧
      q.seats = poster.seats ∧ q.seatsLeft = poster.seatsLeft := by
  rw [updatePoster_success s pid args hfind]
  have hpid : (poster.id == pid) = true := by
    simpa using List.find?_some hfind
  refine ⟨rfl, _,
    find?_map_update Poster.id pid _ (fun a => by split <;> rfl) hfind, ?_, ?_⟩
  · rw [if_pos hpid]
    show jsOrInt args.seats poster.seats = poster.seats
    rw [hS]
    rfl
  · rw [if_pos hpid]
    show newSeatsLeft poster args.seats = poster.seatsLeft
    rw [hS]
    show (if (0 : Int) ≠ 0 ∧ (0 : Int) ≠ poster.seats then
        let d := poster.seatsLeft + (0 - poster.seats)
        if d < 0 then 0 else d
      else poster.seatsLeft) = poster.seatsLeft
    rw [if_neg fun h => h.1 rfl]

/-- An update request body carrying only `seats: 0`. -/
def exZeroArgs : UpdateArgs :=
  ⟨none, none, none, none, none, some 0, none, none⟩

/-- Witness for C10: updating the booked poster with `seats: 0` keeps
`seats = 10` and `seatsLeft = 4`. -/
theorem c10_update_seats_zero_witness :
    (updatePoster exBooked 1 Role.head_admin 1 exZeroArgs).2 =
      ⟨200, "Poster updated successfully"⟩ ∧
    (updatePoster exBooked 1 Role.head_admin 1 exZeroArgs).1.posters.map
      (fun p => (p.seats, p.seatsLeft)) = [(10, 4)] :=
  ⟨(@c10_update_seats_zero_ignored exBooked 1
      ⟨1, 1, 1, 1, "t", "d", "l", "tm", "ds", 10, 4, 5, none⟩ exZeroArgs
      (by decide) rfl).1,
   by decide⟩

/-! ### Claims C3 and C7: approveClubRequest paths -/

/-- The club row `approveClubRequest` inserts for request `req` when the
clubs auto-increment counter is `nid` (abbreviation for the lemmas below). -/
def mkClubRow (nid : Nat) (req : ClubRequest) : Club :=
  { id := nid, name := req.clubName, headId := req.headId, goal := req.goal,
    description := req.description, financing := req.financing,
    resources := req.resources, attractionMethods := req.attractionMethods,
    rating := 0 }

/-- With a pending request whose club name collides with an existing club,
`approveClubRequest` marks the request approved, then the club insert throws
(UNIQUE on `clubs.name`), the handler answers 500 — and the status update
survives while clubs and users are untouched. -/
lemma approveClubRequest_insert_fail (s : Store) (rid : Nat)
    {req : ClubRequest}
    (hfind : s.clubRequests.find? (fun r => r.id == rid) = some req)
    (hpend : req.status = RStatus.pending)
    (hdup : ∃ c ∈ s.clubs, c.name = req.clubName) :
    approveClubRequest s Role.super_admin rid =
      ({ s with clubRequests := s.clubRequests.map (fun r =>
          if r.id == rid then { r with status := RStatus.approved } else r) },
       ⟨500, "Server error"⟩) := by
  unfold approveClubRequest
  rw [if_neg fun h => h rfl]
  simp only [hfind]
  rw [if_neg (by simp [hpend])]
  rw [if_pos]
  apply List.any_eq_true.2
  obtain ⟨c, hc, hname⟩ := hdup
  exact ⟨c, hc, by simp [hname]⟩

/-- With a pending request whose club name is fresh, `approveClubRequest`
answers 200 and performs all three writes: status update, club insert (with
the request's payload and the requester as head), role promotion. -/
lemma approveClubRequest_success (s : Store) (rid : Nat)
    {req : ClubRequest}
    (hfind : s.clubRequests.find? (fun r => r.id == rid) = some req)
    (hpend : req.status = RStatus.pending)
    (hfresh : ∀ c ∈ s.clubs, c.name ≠ req.clubName) :
    approveClubRequest s Role.super_admin rid =
      ({ s with
          clubRequests := s.clubRequests.map (fun r =>
            if r.id == rid then { r with status := RStatus.approved } else r),
          clubs := s.clubs ++ [mkClubRow s.nextClubId req],
          nextClubId := s.nextClubId + 1,
          users := s.users.map (fun u =>
            if u.id == req.headId then { u with role := Role.head_admin }
            else u) },
       ⟨200, "Club request approved and club created successfully"⟩) := by
  unfold approveClubRequest
  rw [if_neg fun h => h rfl]
  simp only [hfind]
  rw [if_neg (by simp [hpend])]
  rw [if_neg]
  · rfl
  · intro hany
    obtain ⟨c, hc, hname⟩ := List.any_eq_true.1 hany
    exact hfresh c hc (by simpa using hname)

/-- C3 (amended): `approveClubRequest` runs its three writes sequentially
with no transaction.  With a super-admin caller and a pending request: if a
club with the request's name already exists, the club insert fails, the call
reports 500, and the earlier request-status write survives while clubs and
users are untouched — a partial state in which the request is `approved` but
its Club row is missing; only when the name is fresh do all three writes take
effect atomically-in-effect. -/
theorem c3_approve_not_atomic (s : Store) (rid : Nat) {req : ClubRequest}
    (hfind : s.clubRequests.find? (fun r => r.id == rid) = some req)
    (hpend : req.status = RStatus.pending) :
    ((∃ c ∈ s.clubs, c.name = req.clubName) →
      (approveClubRequest s Role.super_admin rid).2 = ⟨500, "Server error"⟩ ∧
      (∀ r ∈ (approveClubRequest s Role.super_admin rid).1.clubRequests,
        r.id = rid → r.status = RStatus.approved) ∧
      (approveClubRequest s Role.super_admin rid).1.clubs = s.clubs ∧
      (approveClubRequest s Role.super_admin rid).1.users = s.users) ∧
    ((∀ c ∈ s.clubs, c.name ≠ req.clubName) →
      (approveClubRequest s Role.super_admin rid).2 =
        ⟨200, "Club request approved and club created successfully"⟩ ∧
      (∀ r ∈ (approveClubRequest s Role.super_admin rid).1.clubRequests,
        r.id = rid → r.status = RStatus.approved) ∧
      (∃ c ∈ (approveClubRequest s Role.super_admin rid).1.clubs,
        c.name = req.clubName ∧ c.headId = req.headId) ∧
      (∀ u ∈ (approveClubRequest s Role.super_admin rid).1.users,
        u.id = req.headId → u.role = Role.head_admin)) := by
  constructor
  · intro hdup
    rw [approveClubRequest_insert_fail s rid hfind hpend hdup]
    refine ⟨rfl, ?_, rfl, rfl⟩
    intro r hr hid
    obtain ⟨r1, hr1, rfl⟩ := List.mem_map.1 hr
    by_cases h : (r1.id == rid) = true
    · rw [if_pos h]
    · rw [if_neg h] at hid ⊢
      exact absurd (by simpa using hid) (by simpa using h)
  · intro hfresh
    rw [approveClubRequest_success s rid hfind hpend hfresh]
    refine ⟨rfl, ?_, ?_, ?_⟩
    · intro r hr hid
      obtain ⟨r1, hr1, rfl⟩ := List.mem_map.1 hr
      by_cases h : (r1.id == rid) = true
      · rw [if_pos h]
      · rw [if_neg h] at hid ⊢
        exact absurd (by simpa using hid) (by simpa using h)
    · refine ⟨mkClubRow s.nextClubId req, ?_, rfl, rfl⟩
      exact List.mem_append.2 (Or.inr (List.mem_singleton.2 rfl))
    · intro u hu hid
      obtain ⟨u1, hu1, rfl⟩ := List.mem_map.1 hu
      by_cases h : (u1.id == req.headId) = true
      · rw [if_pos h]
      · rw [if_neg h] at hid ⊢
        exact absurd (by simpa using hid) (by simpa using h)

/-- A pending club request for "Chess" by the student (id 2). -/
def exClubReqP : ClubRequest :=
  ⟨1, "t", 2, "e", "ph", "c", "Chess", "g", "d", "f", none, "m", none,
   RStatus.pending⟩

/-- Store with the pending "Chess" request while a club named "Chess" already
exists (headed by user 1). -/
def exC3 : Store :=
  { exBase with
    clubRequests := [exClubReqP],
    clubs := [⟨1, "Chess", 1, "g", "d", "f", none, "m", 0⟩],
    nextClubId := 2 }

/-- C3 counterexample: approving the pending "Chess" request while another
"Chess" club exists reports failure (500) yet leaves the request `approved`,
with no club of the requester materialized and the requester still a
student — the partial state the claim rules out. -/
theorem c3_counterexample :
    (approveClubRequest exC3 Role.super_admin 1).2.status = 500 ∧
    (approveClubRequest exC3 Role.super_admin 1).1.clubRequests.map
      ClubRequest.status = [RStatus.approved] ∧
    (approveClubRequest exC3 Role.super_admin 1).1.clubs.map Club.headId =
      [1] ∧
    (approveClubRequest exC3 Role.super_admin 1).1.users.map User.role =
      [Role.head_admin, Role.student] := by
  refine ⟨by decide, by decide, by decide, by decide⟩

/-- Witness for C3 at the concrete duplicate-name store. -/
theorem c3_approve_not_atomic_witness :
    (approveClubRequest exC3 Role.super_admin 1).2 = ⟨500, "Server error"⟩ ∧
    (approveClubRequest exC3 Role.super_admin 1).1.clubs = exC3.clubs ∧
    (approveClubRequest exC3 Role.super_admin 1).1.users = exC3.users := by
  have h := (@c3_approve_not_atomic exC3 1 exClubReqP (by decide) rfl).1
    (by decide)
  exact ⟨h.1, h.2.2.1, h.2.2.2⟩

/-- Store with the pending "Chess" request and no name collision. -/
def exC7 : Store := { exBase with clubRequests := [exClubReqP] }

/-- C7: a successful super-admin approval of a pending club request leaves a
Club row named after the request whose `headId` is the requester, and the
requester's role is `head_admin`. -/
theorem c7_approve_creates_club (s : Store) (rid : Nat) {req : ClubRequest}
    (hfind : s.clubRequests.find? (fun r => r.id == rid) = some req)
    (hpend : req.status = RStatus.pending)
    (hfresh : ∀ c ∈ s.clubs, c.name ≠ req.clubName) :
    (approveClubRequest s Role.super_admin rid).2 =
      ⟨200, "Club request approved and club created successfully"⟩ ∧
    (∃ c ∈ (approveClubRequest s Role.super_admin rid).1.clubs,
      c.name = req.clubName ∧ c.headId = req.headId) ∧
    (∀ u ∈ (approveClubRequest s Role.super_admin rid).1.users,
      u.id = req.headId → u.role = Role.head_admin) := by
  rw [approveClubRequest_success s rid hfind hpend hfresh]
  refine ⟨rfl, ?_, ?_⟩
  · refine ⟨mkClubRow s.nextClubId req, ?_, rfl, rfl⟩
    exact List.mem_append.2 (Or.inr (List.mem_singleton.2 rfl))
  · intro u hu hid
    obtain ⟨u1, hu1, rfl⟩ := List.mem_map.1 hu
    by_cases h : (u1.id == req.headId) = true
    · rw [if_pos h]
    · rw [if_neg h] at hid ⊢
      exact absurd (by simpa using hid) (by simpa using h)

/-- Witness for C7: approving the concrete pending "Chess" request succeeds
and the store holds a "Chess" club headed by the requester (user 2). -/
theorem c7_approve_creates_club_witness :
    (approveClubRequest exC7 Role.super_admin 1).2 =
      ⟨200, "Club request approved and club created successfully"⟩ ∧
    (∃ c ∈ (approveClubRequest exC7 Role.super_admin 1).1.clubs,
      c.name = exClubReqP.clubName ∧ c.headId = exClubReqP.headId) ∧
    (∀ u ∈ (approveClubRequest exC7 Role.super_admin 1).1.users,
      u.id = exClubReqP.headId → u.role = Role.head_admin) :=
  @c7_approve_creates_club exC7 1 exClubReqP (by decide) rfl (by decide)

/-! ### Claim C5: request status transitions and terminal states -/

/-- In a duplicate-free table, looking up the key of a member row returns
that row. -/
lemma find?_eq_of_mem_of_nodup {α : Type} (key : α → Nat) {l : List α}
    (hnd : (l.map key).Nodup) {a : α} (ha : a ∈ l) (k : Nat)
    (hk : key a = k) :
    l.find? (fun b => key b == k) = some a := by
  cases hf : l.find? (fun b => key b == k) with
  | none =>
    rw [List.find?_eq_none] at hf
    exact absurd (by simp [hk]) (hf a ha)
  | some b =>
    have hbmem : b ∈ l := List.mem_of_find?_eq_some hf
    have hbk : key b = k := by simpa using List.find?_some hf
    rw [eq_of_mem_of_nodup_key key hnd hbmem ha (hbk.trans hk.symm)]

/-- The `clubRequests` table after `approveClubRequest`: either untouched, or
a found pending request (and only rows sharing its id) moved to approved. -/
lemma approveClubRequest_requests (s : Store) (rid : Nat) :
    (approveClubRequest s Role.super_admin rid).1.clubRequests =
      s.clubRequests ∨
    (∃ req ∈ s.clubRequests, req.id = rid ∧ req.status = RStatus.pending ∧
      (approveClubRequest s Role.super_admin rid).1.clubRequests =
        s.clubRequests.map (fun r =>
          if r.id == rid then { r with status := RStatus.approved } else r)) := by
  cases hf : s.clubRequests.find? (fun r => r.id == rid) with
  | none =>
    unfold approveClubRequest
    rw [if_neg fun h => h rfl]
    simp only [hf]
    exact Or.inl (by trivial)
  | some req =>
    by_cases hst : req.status = RStatus.pending
    · refine Or.inr ⟨req, List.mem_of_find?_eq_some hf,
        by simpa using List.find?_some hf, hst, ?_⟩
      unfold approveClubRequest
      rw [if_neg fun h => h rfl]
      simp only [hf]
      rw [if_neg (by simp [hst])]
      split
      · rfl
      · rfl
    · unfold approveClubRequest
      rw [if_neg fun h => h rfl]
      simp only [hf]
      rw [if_pos (by simp [hst])]
      exact Or.inl (by trivial)

/-- The `clubRequests` table after `rejectClubRequest`: either untouched, or
a found pending request (and only rows sharing its id) moved to rejected. -/
lemma rejectClubRequest_requests (s : Store) (rid : Nat) :
    (rejectClubRequest s Role.super_admin rid).1.clubRequests =
      s.clubRequests ∨
    (∃ req ∈ s.clubRequests, req.id = rid ∧ req.status = RStatus.pending ∧
      (rejectClubRequest s Role.super_admin rid).1.clubRequests =
        s.clubRequests.map (fun r =>
          if r.id == rid then { r with status := RStatus.rejected } else r)) := by
  cases hf : s.clubRequests.find? (fun r => r.id == rid) with
  | none =>
    unfold rejectClubRequest
    rw [if_neg fun h => h rfl]
    simp only [hf]
    exact Or.inl (by trivial)
  | some req =>
    by_cases hst : req.status = RStatus.pending
    · refine Or.inr ⟨req, List.mem_of_find?_eq_some hf,
        by simpa using List.find?_some hf, hst, ?_⟩
      unfold rejectClubRequest
      rw [if_neg fun h => h rfl]
      simp only [hf]
      rw [if_neg (by simp [hst])]
    · unfold rejectClubRequest
      rw [if_neg fun h => h rfl]
      simp only [hf]
      rw [if_pos (by simp [hst])]
      exact Or.inl (by trivial)

/-- The `eventRequests` table after `approveEventRequest`: either untouched,
or a found pending request moved to approved. -/
lemma approveEventRequest_requests (s : Store) (rid : Nat) :
    (approveEventRequest s Role.super_admin rid).1.eventRequests =
      s.eventRequests ∨
    (∃ req ∈ s.eventRequests, req.id = rid ∧ req.status = RStatus.pending ∧
      (approveEventRequest s Role.super_admin rid).1.eventRequests =
        s.eventRequests.map (fun r =>
          if r.id == rid then { r with status := RStatus.approved } else r)) := by
  cases hf : s.eventRequests.find? (fun r => r.id == rid) with
  | none =>
    unfold approveEventRequest
    rw [if_neg fun h => h rfl]
    simp only [hf]
    exact Or.inl (by trivial)
  | some req =>
    by_cases hst : req.status = RStatus.pending
    · refine Or.inr ⟨req, List.mem_of_find?_eq_some hf,
        by simpa using List.find?_some hf, hst, ?_⟩
      unfold approveEventRequest
      rw [if_neg fun h => h rfl]
      simp only [hf]
      rw [if_neg (by simp [hst])]
    · unfold approveEventRequest
      rw [if_neg fun h => h rfl]
      simp only [hf]
      rw [if_pos (by simp [hst])]
      exact Or.inl (by trivial)

/-- The `eventRequests` table after `rejectEventRequest`: either untouched,
or a found pending request moved to rejected. -/
lemma rejectEventRequest_requests (s : Store) (rid : Nat) :
    (rejectEventRequest s Role.super_admin rid).1.eventRequests =
      s.eventRequests ∨
    (∃ req ∈ s.eventRequests, req.id = rid ∧ req.status = RStatus.pending ∧
      (rejectEventRequest s Role.super_admin rid).1.eventRequests =
        s.eventRequests.map (fun r =>
          if r.id == rid then { r with status := RStatus.rejected } else r)) := by
  cases hf : s.eventRequests.find? (fun r => r.id == rid) with
  | none =>
    unfold rejectEventRequest
    rw [if_neg fun h => h rfl]
    simp only [hf]
    exact Or.inl (by trivial)
  | some req =>
    by_cases hst : req.status = RStatus.pending
    · refine Or.inr ⟨req, List.mem_of_find?_eq_some hf,
        by simpa using List.find?_some hf, hst, ?_⟩
      unfold rejectEventRequest
      rw [if_neg fun h => h rfl]
      simp only [hf]
      rw [if_neg (by simp [hst])]
    · unfold rejectEventRequest
      rw [if_neg fun h => h rfl]
      simp only [hf]
      rw [if_pos (by simp [hst])]
      exact Or.inl (by trivial)

/-- A keyed status update moves only the found pending row, and only to the
target status: every row of the updated table either kept its status or was
pending and now carries the target. -/
lemma status_update_transitions {α : Type} (key : α → Nat) (st : α → RStatus)
    (upd : α → α) (tgt : RStatus) (rid : Nat)
    (hkey : ∀ a, key (upd a) = key a) (hst : ∀ a, st (upd a) = tgt)
    {l : List α} (hnd : (l.map key).Nodup) {req : α} (hmem : req ∈ l)
    (hid : key req = rid) (hpend : st req = RStatus.pending) :
    ∀ r2 ∈ l.map (fun r => if key r == rid then upd r else r),
      ∃ r1 ∈ l, key r2 = key r1 ∧
        (st r2 = st r1 ∨ (st r1 = RStatus.pending ∧ st r2 = tgt)) := by
  intro r2 hr2
  obtain ⟨r1, hr1, rfl⟩ := List.mem_map.1 hr2
  by_cases h : (key r1 == rid) = true
  · have hr1id : key r1 = rid := by simpa using h
    have hre : r1 = req :=
      eq_of_mem_of_nodup_key key hnd hr1 hmem (hr1id.trans hid.symm)
    rw [if_pos h]
    exact ⟨r1, hr1, hkey r1, Or.inr ⟨hre ▸ hpend, hst r1⟩⟩
  · rw [if_neg h]
    exact ⟨r1, hr1, rfl, Or.inl rfl⟩

/-- C5: the request pipeline's only status transitions are pending→approved
and pending→rejected (for club and event requests alike), and resolved
requests are terminal: an approve or reject on a request whose status is not
`pending` answers 400 "Request already {status}" and returns the store
unchanged. -/
theorem c5_request_transitions_terminal (s : Store) (rid : Nat)
    (hcnd : (s.clubRequests.map ClubRequest.id).Nodup)
    (hend : (s.eventRequests.map EventRequest.id).Nodup) :
    (∀ r2 ∈ (approveClubRequest s Role.super_admin rid).1.clubRequests,
      ∃ r1 ∈ s.clubRequests, r2.id = r1.id ∧
        (r2.status = r1.status ∨
          (r1.status = RStatus.pending ∧ r2.status = RStatus.approved))) ∧
    (∀ r2 ∈ (rejectClubRequest s Role.super_admin rid).1.clubRequests,
      ∃ r1 ∈ s.clubRequests, r2.id = r1.id ∧
        (r2.status = r1.status ∨
          (r1.status = RStatus.pending ∧ r2.status = RStatus.rejected))) ∧
    (∀ r2 ∈ (approveEventRequest s Role.super_admin rid).1.eventRequests,
      ∃ r1 ∈ s.eventRequests, r2.id = r1.id ∧
        (r2.status = r1.status ∨
          (r1.status = RStatus.pending ∧ r2.status = RStatus.approved))) ∧
    (∀ r2 ∈ (rejectEventRequest s Role.super_admin rid).1.eventRequests,
      ∃ r1 ∈ s.eventRequests, r2.id = r1.id ∧
        (r2.status = r1.status ∨
          (r1.status = RStatus.pending ∧ r2.status = RStatus.rejected))) ∧
    (∀ req ∈ s.clubRequests, req.id = rid → req.status ≠ RStatus.pending →
      approveClubRequest s Role.super_admin rid =
        (s, ⟨400, "Request already " ++ req.status.str⟩) ∧
      rejectClubRequest s Role.super_admin rid =
        (s, ⟨400, "Request already " ++ req.status.str⟩)) ∧
    (∀ req ∈ s.eventRequests, req.id = rid → req.status ≠ RStatus.pending →
      approveEventRequest s Role.super_admin rid =
        (s, ⟨400, "Request already " ++ req.status.str⟩) ∧
      rejectEventRequest s Role.super_admin rid =
        (s, ⟨400, "Request already " ++ req.status.str⟩)) := by
  refine ⟨?_, ?_, ?_, ?_, ?_, ?_⟩
  · rcases approveClubRequest_requests s rid with heq | ⟨req, hmem, hid, hpend, heq⟩
    · rw [heq]
      exact fun r2 hr2 => ⟨r2, hr2, rfl, Or.inl rfl⟩
    · rw [heq]
      exact status_update_transitions ClubRequest.id ClubRequest.status
        (fun r => { r with status := RStatus.approved })
        RStatus.approved rid (fun a => rfl) (fun a => rfl) hcnd hmem hid hpend
  · rcases rejectClubRequest_requests s rid with heq | ⟨req, hmem, hid, hpend, heq⟩
    · rw [heq]
      exact fun r2 hr2 => ⟨r2, hr2, rfl, Or.inl rfl⟩
    · rw [heq]
      exact status_update_transitions ClubRequest.id ClubRequest.status
        (fun r => { r with status := RStatus.rejected })
        RStatus.rejected rid (fun a => rfl) (fun a => rfl) hcnd hmem hid hpend
  · rcases approveEventRequest_requests s rid with heq | ⟨req, hmem, hid, hpend, heq⟩
    · rw [heq]
      exact fun r2 hr2 => ⟨r2, hr2, rfl, Or.inl rfl⟩
    · rw [heq]
      exact status_update_transitions EventRequest.id EventRequest.status
        (fun r => { r with status := RStatus.approved })
        RStatus.approved rid (fun a => rfl) (fun a => rfl) hend hmem hid hpend
  · rcases rejectEventRequest_requests s rid with heq | ⟨req, hmem, hid, hpend, heq⟩
    · rw [heq]
      exact fun r2 hr2 => ⟨r2, hr2, rfl, Or.inl rfl⟩
    · rw [heq]
      exact status_update_transitions EventRequest.id EventRequest.status
        (fun r => { r with status := RStatus.rejected })
        RStatus.rejected rid (fun a => rfl) (fun a => rfl) hend hmem hid hpend
  · intro req hmem hid hres
    have hfind := find?_eq_of_mem_of_nodup ClubRequest.id hcnd hmem rid hid
    constructor
    · unfold approveClubRequest
      rw [if_neg fun h => h rfl]
      simp only [hfind]
      rw [if_pos hres]
    · unfold rejectClubRequest
      rw [if_neg fun h => h rfl]
      simp only [hfind]
      rw [if_pos hres]
  · intro req hmem hid hres
    have hfind := find?_eq_of_mem_of_nodup EventRequest.id hend hmem rid hid
    constructor
    · unfold approveEventRequest
      rw [if_neg fun h => h rfl]
      simp only [hfind]
      rw [if_pos hres]
    · unfold rejectEventRequest
      rw [if_neg fun h => h rfl]
      simp only [hfind]
      rw [if_pos hres]

/-- An already-approved club request and an already-rejected event request. -/
def exClubReqA : ClubRequest :=
  ⟨1, "t", 2, "e", "ph", "c", "Chess", "g", "d", "f", none, "m", none,
   RStatus.approved⟩

/-- An already-rejected event request for the head admin's club. -/
def exEventReqR : EventRequest :=
  ⟨1, 1, 1, "e", "d", "l", "sd", "g", "o", "sch", none, "ch", "ph", none,
   RStatus.rejected⟩

/-- Store holding one resolved club request and one resolved event request. -/
def exC5 : Store :=
  { exBase with clubRequests := [exClubReqA], eventRequests := [exEventReqR] }

/-- Witness for C5: a second approve on the approved club request and a
second reject on the rejected event request both answer 400
"Request already {status}" and change nothing. -/
theorem c5_request_transitions_witness :
    approveClubRequest exC5 Role.super_admin 1 =
      (exC5, ⟨400, "Request already " ++ exClubReqA.status.str⟩) ∧
    rejectEventRequest exC5 Role.super_admin 1 =
      (exC5, ⟨400, "Request already " ++ exEventReqR.status.str⟩) := by
  have h := c5_request_transitions_terminal exC5 1 (by decide) (by decide)
  exact ⟨(h.2.2.2.2.1 exClubReqA (by decide) rfl (by decide)).1,
         (h.2.2.2.2.2 exEventReqR (by decide) rfl (by decide)).2⟩

/-! ### Claim C8: deleteClub cascade -/

/-- Membership after the per-parent deletion loop: a row survives iff it
references none of the listed parents. -/
lemma mem_foldl_filter {α β : Type} (key : α → Nat) (pkey : β → Nat)
    (ps : List β) (l : List α) (a : α) :
    (a ∈ ps.foldl (fun acc p => acc.filter (fun x => key x != pkey p)) l) ↔
      (a ∈ l ∧ ∀ p ∈ ps, key a ≠ pkey p) := by
  induction ps generalizing l with
  | nil => simp
  | cons p ps ih =>
    rw [List.foldl_cons, ih]
    simp only [List.mem_filter, List.mem_cons, bne_iff_ne, ne_eq]
    constructor
    · rintro ⟨⟨hmem, hne⟩, hall⟩
      refine ⟨hmem, ?_⟩
      intro q hq
      rcases hq with rfl | hq
      · simpa using hne
      · exact hall q hq
    · rintro ⟨hmem, hall⟩
      refine ⟨⟨hmem, by simpa using hall p (Or.inl rfl)⟩, ?_⟩
      intro q hq
      exact hall q (Or.inr hq)

/-- Path equation for a successful `deleteClub`. -/
lemma deleteClub_success (s : Store) (cid : Nat) {club : Club}
    (hfind : s.clubs.find? (fun c => c.id == cid) = some club) :
    deleteClub s Role.super_admin cid =
      ({ s with
          ticketBookings := (s.posters.filter (fun p => p.clubId == cid)).foldl
            (fun acc poster => acc.filter (fun b => b.posterId != poster.id))
            s.ticketBookings,
          postLikes := (s.posts.filter (fun p => p.clubId == some cid)).foldl
            (fun acc post => acc.filter (fun l => l.postId != post.id))
            s.postLikes,
          posts := s.posts.filter (fun p => p.clubId != some cid),
          posters := s.posters.filter (fun p => p.clubId != cid),
          events := s.events.filter (fun e => e.clubId != cid),
          eventRequests := s.eventRequests.filter (fun r => r.clubId != cid),
          users := s.users.map (fun u =>
            if u.id == club.headId then { u with role := Role.student }
            else u),
          clubs := s.clubs.filter (fun c => c.id != cid) },
       ⟨200, "Club deleted successfully and head admin role reset to student"⟩) := by
  unfold deleteClub
  rw [if_neg fun h => h rfl]
  simp only [hfind]

/-- C8: `deleteClub` by a super admin on an existing club removes exactly the
bookings referencing the club's posters and the likes referencing the club's
posts, then the club's posts, posters, events and event requests, resets the
former head's role to `student` (leaving other users as they were), and
deletes the club row; rows tied to other clubs survive unchanged. -/
theorem c8_delete_cascade (s : Store) (cid : Nat) {club : Club}
    (hfind : s.clubs.find? (fun c => c.id == cid) = some club) :
    (deleteClub s Role.super_admin cid).2 =
      ⟨200, "Club deleted successfully and head admin role reset to student"⟩ ∧
    (∀ b : TicketBooking,
      b ∈ (deleteClub s Role.super_admin cid).1.ticketBookings ↔
        (b ∈ s.ticketBookings ∧
          ∀ p ∈ s.posters, p.clubId = cid → b.posterId ≠ p.id)) ∧
    (∀ lk : PostLike,
      lk ∈ (deleteClub s Role.super_admin cid).1.postLikes ↔
        (lk ∈ s.postLikes ∧
          ∀ p ∈ s.posts, p.clubId = some cid → lk.postId ≠ p.id)) ∧
    (∀ p : Post, p ∈ (deleteClub s Role.super_admin cid).1.posts ↔
      (p ∈ s.posts ∧ p.clubId ≠ some cid)) ∧
    (∀ p : Poster, p ∈ (deleteClub s Role.super_admin cid).1.posters ↔
      (p ∈ s.posters ∧ p.clubId ≠ cid)) ∧
    (∀ e : Event, e ∈ (deleteClub s Role.super_admin cid).1.events ↔
      (e ∈ s.events ∧ e.clubId ≠ cid)) ∧
    (∀ r : EventRequest,
      r ∈ (deleteClub s Role.super_admin cid).1.eventRequests ↔
        (r ∈ s.eventRequests ∧ r.clubId ≠ cid)) ∧
    (∀ c : Club, c ∈ (deleteClub s Role.super_admin cid).1.clubs ↔
      (c ∈ s.clubs ∧ c.id ≠ cid)) ∧
    (∀ u ∈ (deleteClub s Role.super_admin cid).1.users,
      u.id = club.headId → u.role = Role.student) ∧
    (∀ u ∈ s.users, u.id ≠ club.headId →
      u ∈ (deleteClub s Role.super_admin cid).1.users) := by
  rw [deleteClub_success s cid hfind]
  refine ⟨rfl, ?_, ?_, ?_, ?_, ?_, ?_, ?_, ?_, ?_⟩
  · intro b
    show b ∈ (s.posters.filter (fun p => p.clubId == cid)).foldl
        (fun acc poster => acc.filter (fun bk => bk.posterId != poster.id))
        s.ticketBookings ↔ _
    rw [mem_foldl_filter TicketBooking.posterId Poster.id]
    constructor
    · rintro ⟨hmem, hall⟩
      refine ⟨hmem, ?_⟩
      intro p hp hpc
      exact hall p (List.mem_filter.2 ⟨hp, by simp [hpc]⟩)
    · rintro ⟨hmem, hall⟩
      refine ⟨hmem, ?_⟩
      intro p hp
      have hp2 := List.mem_filter.1 hp
      exact hall p hp2.1 (by simpa using hp2.2)
  · intro lk
    show lk ∈ (s.posts.filter (fun p => p.clubId == some cid)).foldl
        (fun acc post => acc.filter (fun l => l.postId != post.id))
        s.postLikes ↔ _
    rw [mem_foldl_filter PostLike.postId Post.id]
    constructor
    · rintro ⟨hmem, hall⟩
      refine ⟨hmem, ?_⟩
      intro p hp hpc
      exact hall p (List.mem_filter.2 ⟨hp, by simp [hpc]⟩)
    · rintro ⟨hmem, hall⟩
      refine ⟨hmem, ?_⟩
      intro p hp
      have hp2 := List.mem_filter.1 hp
      exact hall p hp2.1 (by simpa using hp2.2)
  · intro p
    show p ∈ s.posts.filter (fun q => q.clubId != some cid) ↔ _
    simp [List.mem_filter]
  · intro p
    show p ∈ s.posters.filter (fun q => q.clubId != cid) ↔ _
    simp [List.mem_filter]
  · intro e
    show e ∈ s.events.filter (fun q => q.clubId != cid) ↔ _
    simp [List.mem_filter]
  · intro r
    show r ∈ s.eventRequests.filter (fun q => q.clubId != cid) ↔ _
    simp [List.mem_filter]
  · intro c
    show c ∈ s.clubs.filter (fun q => q.id != cid) ↔ _
    simp [List.mem_filter]
  · intro u hu hid
    obtain ⟨u1, hu1, rfl⟩ := List.mem_map.1 hu
    by_cases h : (u1.id == club.headId) = true
    · rw [if_pos h]
    · rw [if_neg h] at hid ⊢
      exact absurd (by simpa using hid) (by simpa using h)
  · intro u hu hid
    show u ∈ s.users.map (fun v =>
      if v.id == club.headId then { v with role := Role.student } else v)
    exact List.mem_map.2 ⟨u, hu, by rw [if_neg (by simpa using hid)]⟩

/-- A two-club store: club 1 (head user 1) and club 2 (head user 2), each
with a poster, a booking on that poster, a post and a like on that post; one
event request of club 1. -/
def exC8 : Store :=
  { exBase with
    clubs := [⟨1, "c", 1, "g", "d", "f", none, "m", 0⟩,
              ⟨2, "c2", 2, "g", "d", "f", none, "m", 0⟩],
    posters := [⟨1, 1, 1, 1, "t", "d", "l", "tm", "ds", 10, 4, 5, none⟩,
                ⟨2, 1, 2, 2, "t", "d", "l", "tm", "ds", 5, 5, 5, none⟩],
    ticketBookings := [⟨1, 1, 2, 6, some "p", RStatus.pending⟩,
                       ⟨2, 2, 2, 1, some "p", RStatus.pending⟩],
    posts := [⟨1, some 1, 1, "t", "c", none, 1⟩,
              ⟨2, some 2, 2, "t", "c", none, 1⟩],
    postLikes := [⟨1, 1, 2⟩, ⟨2, 2, 1⟩],
    eventRequests := [⟨1, 1, 1, "e", "d", "l", "sd", "g", "o", "sch", none,
                      "ch", "ph", none, RStatus.pending⟩] }

/-- Witness for C8: deleting club 1 succeeds, keeps club 2's booking, resets
the head of club 1 to student and leaves only club 2. -/
theorem c8_delete_cascade_witness :
    (deleteClub exC8 Role.super_admin 1).2 =
      ⟨200, "Club deleted successfully and head admin role reset to student"⟩ ∧
    ((⟨2, 2, 2, 1, some "p", RStatus.pending⟩ : TicketBooking) ∈
      (deleteClub exC8 Role.super_admin 1).1.ticketBookings) ∧
    (deleteClub exC8 Role.super_admin 1).1.users.map User.role =
      [Role.student, Role.student] ∧
    (deleteClub exC8 Role.super_admin 1).1.clubs.map Club.id = [2] := by
  have h := @c8_delete_cascade exC8 1 ⟨1, "c", 1, "g", "d", "f", none, "m", 0⟩
    (by decide)
  refine ⟨h.1, ?_, by decide, by decide⟩
  exact (h.2.1 ⟨2, 2, 2, 1, some "p", RStatus.pending⟩).2 ⟨by decide, by decide⟩

/-! ### Claim C9: like toggling -/

/-- A row map that fixes every row is the identity on the table. -/
lemma map_eq_self_of_mem {α : Type} (f : α → α) {l : List α}
    (h : ∀ a ∈ l, f a = a) : l.map f = l := by
  induction l with
  | nil => rfl
  | cons a l ih =>
    rw [List.map_cons, h a (List.mem_cons_self a l),
      ih fun b hb => h b (List.mem_cons_of_mem a hb)]

/-- The store `toggleLikePost` leaves behind on its insert (like) branch,
where `post` is the row it read. -/
def likeInsState (s : Store) (pid uid : Nat) (post : Post) : Store :=
  { s with
    postLikes := s.postLikes ++ [⟨s.nextLikeId, pid, uid⟩],
    nextLikeId := s.nextLikeId + 1,
    posts := s.posts.map (fun p =>
      if p.id == pid then { p with likes := post.likes + 1 } else p) }

/-- The store `toggleLikePost` leaves behind on its delete (unlike) branch,
where `post` is the row it read. -/
def likeDelState (s : Store) (pid uid : Nat) (post : Post) : Store :=
  { s with
    postLikes := s.postLikes.filter (fun l =>
      !(l.postId == pid && l.userId == uid)),
    posts := s.posts.map (fun p =>
      if p.id == pid then { p with likes := post.likes - 1 } else p) }

lemma toggleLikePost_insert (s : Store) (uid pid : Nat) {post : Post}
    (hfind : s.posts.find? (fun p => p.id == pid) = some post)
    (hlk : s.postLikes.find?
      (fun l => l.postId == pid && l.userId == uid) = none) :
    toggleLikePost s uid pid =
      (likeInsState s pid uid post, ⟨200, "Post liked successfully"⟩) := by
  unfold toggleLikePost likeInsState
  simp only [hfind]
  simp only [hlk]

lemma toggleLikePost_delete (s : Store) (uid pid : Nat) {post : Post}
    {lk : PostLike}
    (hfind : s.posts.find? (fun p => p.id == pid) = some post)
    (hlk : s.postLikes.find?
      (fun l => l.postId == pid && l.userId == uid) = some lk) :
    toggleLikePost s uid pid =
      (likeDelState s pid uid post, ⟨200, "Post unliked successfully"⟩) := by
  unfold toggleLikePost likeDelState
  simp only [hfind]
  simp only [hlk]

/-- A keyed update followed by a second keyed update that undoes it on every
key-matching row of the table is the identity. -/
lemma map_if_map_if {α : Type} (key : α → Nat) (k : Nat) (f g : α → α)
    (hkey : ∀ a, key (f a) = key a) (l : List α)
    (hcancel : ∀ a ∈ l, key a = k → g (f a) = a) :
    (l.map (fun x => if key x == k then f x else x)).map
      (fun x => if key x == k then g x else x) = l := by
  induction l with
  | nil => rfl
  | cons a l ih =>
    rw [List.map_cons, List.map_cons,
      ih fun b hb hbk => hcancel b (List.mem_cons_of_mem a hb) hbk]
    congr 1
    by_cases h : (key a == k) = true
    · rw [if_pos h, if_pos (by simpa [hkey a] using h)]
      exact hcancel a (List.mem_cons_self a l) (by simpa using h)
    · rw [if_neg h, if_neg h]

/-- C9: toggling a like twice in succession by the same user on the same
existing post restores the observable store: the post's likes counter is back
to its original value, a like row for a (post, user) pair exists afterwards
exactly when one existed before, and — when the user had not liked the post —
the posts and like tables are literally unchanged (the second call removes
the row the first created). -/
theorem c9_toggle_twice_identity (s : Store) (uid pid : Nat) {post : Post}
    (hfind : s.posts.find? (fun p => p.id == pid) = some post)
    (hnd : (s.posts.map Post.id).Nodup) :
    (∃ q, (toggleLikePost (toggleLikePost s uid pid).1 uid pid).1.posts.find?
        (fun p => p.id == pid) = some q ∧ q.likes = post.likes) ∧
    (∀ pid2 uid2 : Nat,
      (∃ l ∈ (toggleLikePost (toggleLikePost s uid pid).1 uid pid).1.postLikes,
        l.postId = pid2 ∧ l.userId = uid2) ↔
      (∃ l ∈ s.postLikes, l.postId = pid2 ∧ l.userId = uid2)) ∧
    (s.postLikes.find? (fun l => l.postId == pid && l.userId == uid) = none →
      (toggleLikePost (toggleLikePost s uid pid).1 uid pid).1.posts =
        s.posts ∧
      (toggleLikePost (toggleLikePost s uid pid).1 uid pid).1.postLikes =
        s.postLikes) := by
  have hpid : post.id = pid := by simpa using List.find?_some hfind
  have hbeqpid : (post.id == pid) = true := by simp [hpid]
  have hpmem : post ∈ s.posts := List.mem_of_find?_eq_some hfind
  cases hlk : s.postLikes.find?
      (fun l => l.postId == pid && l.userId == uid) with
  | none =>
    rw [toggleLikePost_insert s uid pid hfind hlk]
    rw [show ((likeInsState s pid uid post,
      (⟨200, "Post liked successfully"⟩ : ApiResp))).1 =
      likeInsState s pid uid post from rfl]
    have hfind1 : (likeInsState s pid uid post).posts.find?
        (fun p => p.id == pid) =
        some { post with likes := post.likes + 1 } := by
      show (s.posts.map (fun p =>
        if p.id == pid then { p with likes := post.likes + 1 } else p)).find?
        (fun p => p.id == pid) = _
      have h2 := find?_map_update Post.id pid
        (fun p => { p with likes := post.likes + 1 }) (fun a => rfl) hfind
      rwa [if_pos hbeqpid] at h2
    have hlk1 : (likeInsState s pid uid post).postLikes.find?
        (fun l => l.postId == pid && l.userId == uid) =
        some ⟨s.nextLikeId, pid, uid⟩ := by
      show (s.postLikes ++ [(⟨s.nextLikeId, pid, uid⟩ : PostLike)]).find? _ = _
      rw [find?_none_append _ _ hlk]
      simp [List.find?]
    rw [toggleLikePost_delete (likeInsState s pid uid post) uid pid hfind1 hlk1]
    rw [show ((likeDelState (likeInsState s pid uid post) pid uid
        { post with likes := post.likes + 1 },
      (⟨200, "Post unliked successfully"⟩ : ApiResp))).1 =
      likeDelState (likeInsState s pid uid post) pid uid
        { post with likes := post.likes + 1 } from rfl]
    have hposts2 : (likeDelState (likeInsState s pid uid post) pid uid
        { post with likes := post.likes + 1 }).posts = s.posts := by
      show (s.posts.map (fun p =>
          if p.id == pid then { p with likes := post.likes + 1 } else p)).map
          (fun p => if p.id == pid then
            { p with likes :=
              ({ post with likes := post.likes + 1 } : Post).likes - 1 }
          else p) = s.posts
      apply map_if_map_if Post.id pid
        (fun p => { p with likes := post.likes + 1 })
        (fun p => { p with likes :=
          ({ post with likes := post.likes + 1 } : Post).likes - 1 })
        (fun a => rfl)
      intro a ha hak
      have hae : a = post :=
        eq_of_mem_of_nodup_key Post.id hnd ha hpmem (hak.trans hpid.symm)
      subst hae
      show ({ a with likes := a.likes + 1 - 1 } : Post) = a
      rw [show a.likes + 1 - 1 = a.likes from by omega]
    have hlikes2 : (likeDelState (likeInsState s pid uid post) pid uid
        { post with likes := post.likes + 1 }).postLikes = s.postLikes := by
      show (s.postLikes ++ [(⟨s.nextLikeId, pid, uid⟩ : PostLike)]).filter
        (fun l => !(l.postId == pid && l.userId == uid)) = s.postLikes
      rw [List.filter_append, filter_not_eq_self_of_find?_none _ hlk]
      simp [List.filter]
    refine ⟨⟨post, ?_, rfl⟩, ?_, fun _ => ⟨hposts2, hlikes2⟩⟩
    · rw [hposts2, hfind]
    · intro pid2 uid2
      rw [hlikes2]
  | some lk =>
    have hlkmem : lk ∈ s.postLikes := List.mem_of_find?_eq_some hlk
    have hlkpair : lk.postId = pid ∧ lk.userId = uid := by
      have h2 := List.find?_some hlk
      simp only [Bool.and_eq_true, beq_iff_eq] at h2
      exact h2
    rw [toggleLikePost_delete s uid pid hfind hlk]
    rw [show ((likeDelState s pid uid post,
      (⟨200, "Post unliked successfully"⟩ : ApiResp))).1 =
      likeDelState s pid uid post from rfl]
    have hfind1 : (likeDelState s pid uid post).posts.find?
        (fun p => p.id == pid) =
        some { post with likes := post.likes - 1 } := by
      show (s.posts.map (fun p =>
        if p.id == pid then { p with likes := post.likes - 1 } else p)).find?
        (fun p => p.id == pid) = _
      have h2 := find?_map_update Post.id pid
        (fun p => { p with likes := post.likes - 1 }) (fun a => rfl) hfind
      rwa [if_pos hbeqpid] at h2
    have hlk1 : (likeDelState s pid uid post).postLikes.find?
        (fun l => l.postId == pid && l.userId == uid) = none := by
      show (s.postLikes.filter (fun l =>
        !(l.postId == pid && l.userId == uid))).find? _ = none
      exact find?_filter_not_none _ _
    rw [toggleLikePost_insert (likeDelState s pid uid post) uid pid hfind1 hlk1]
    rw [show ((likeInsState (likeDelState s pid uid post) pid uid
        { post with likes := post.likes - 1 },
      (⟨200, "Post liked successfully"⟩ : ApiResp))).1 =
      likeInsState (likeDelState s pid uid post) pid uid
        { post with likes := post.likes - 1 } from rfl]
    refine ⟨?_, ?_, ?_⟩
    · refine ⟨{ post with likes := post.likes - 1 + 1 }, ?_, ?_⟩
      · show ((likeDelState s pid uid post).posts.map (fun p =>
          if p.id == pid then
            { p with likes :=
              ({ post with likes := post.likes - 1 } : Post).likes + 1 }
          else p)).find? (fun p => p.id == pid) = _
        have h2 := find?_map_update Post.id pid
          (fun p => { p with likes :=
            ({ post with likes := post.likes - 1 } : Post).likes + 1 })
          (fun a => rfl) hfind1
        rwa [if_pos (show ((({ post with likes := post.likes - 1 } : Post)).id
          == pid) = true from by simpa using hbeqpid)] at h2
      · show post.likes - 1 + 1 = post.likes
        omega
    · intro pid2 uid2
      show (∃ l ∈ (s.postLikes.filter (fun l =>
          !(l.postId == pid && l.userId == uid))) ++
          [(⟨s.nextLikeId, pid, uid⟩ : PostLike)],
          l.postId = pid2 ∧ l.userId = uid2) ↔ _
      constructor
      · rintro ⟨l, hl, hlp, hlu⟩
        rcases List.mem_append.1 hl with hl | hl
        · exact ⟨l, (List.mem_filter.1 hl).1, hlp, hlu⟩
        · rcases List.mem_singleton.1 hl with rfl
          exact ⟨lk, hlkmem, hlkpair.1.trans hlp, hlkpair.2.trans hlu⟩
      · rintro ⟨l, hl, hlp, hlu⟩
        by_cases hc : pid2 = pid ∧ uid2 = uid
        · refine ⟨⟨s.nextLikeId, pid, uid⟩,
            List.mem_append.2 (Or.inr (List.mem_singleton.2 rfl)),
            hc.1.symm, hc.2.symm⟩
        · refine ⟨l, List.mem_append.2 (Or.inl (List.mem_filter.2
            ⟨hl, ?_⟩)), hlp, hlu⟩
          cases hb : (l.postId == pid && l.userId == uid) with
          | false => simp
          | true =>
            exfalso
            simp only [Bool.and_eq_true, beq_iff_eq] at hb
            exact hc ⟨hlp ▸ hb.1, hlu ▸ hb.2⟩
    · intro hnone
      exact absurd hnone (by simp)

/-- A post of club 1 with three likes on record. -/
def exPost1 : Post := ⟨1, some 1, 1, "t", "c", none, 3⟩

/-- Store with that single post and no like rows. -/
def exC9 : Store := { exBase with posts := [exPost1] }

/-- Witness for C9: student 2 toggling post 1 twice leaves the posts and
like tables exactly as they were. -/
theorem c9_toggle_twice_witness :
    (toggleLikePost (toggleLikePost exC9 2 1).1 2 1).1.posts = exC9.posts ∧
    (toggleLikePost (toggleLikePost exC9 2 1).1 2 1).1.postLikes =
      exC9.postLikes :=
  (@c9_toggle_twice_identity exC9 2 1 exPost1 (by decide) (by decide)).2.2
    (by decide)

end Diploma2